import Mathlib

/-!
The routing decision of goflyway (`proxy/acl.go`).

A shallow embedding of `ProxyClient.canDirectConnect` and `ProxyServer.isBlocked`.

Conventions of the embedding

* A Go `byte` is a `Nat`; no arithmetic is done on the bytes of this file.
* A Go `string` is a Lean `String`; a byte slice converted with `string(ip)` becomes the
  string whose characters are the bytes (one character per byte).
* The collaborators that `acl.go` only calls (rule matcher, transports, codec, base64
  decoder, `splitHostPort`) are fields of the `ProxyClient` record: the functions of
  this file are embedded for every behaviour of those collaborators.
* The mutable part of the client is the decision cache; a call returns the cache it
  leaves behind together with the ordered list of collaborator calls it made.
* A Go `panic` is the result `none`: the call does not return.  What the deferred closure
  does while a panic unwinds is not part of that result.
-/

namespace Proxy

/-! ## Constants and data model -/

/-- Outcome constant `ruleProxy` (`iota` = 0). -/
def ruleProxy : Nat := 0
/-- Outcome constant `rulePass` (`iota` = 1). -/
def rulePass : Nat := 1
/-- Outcome constant `ruleBlock` (`iota` = 2). -/
def ruleBlock : Nat := 2

/-- The cached value `Rule` of `acl.go`. -/
structure Rule where
  IP : String
  Ans : Nat
  OldAns : Nat
  R : Nat
deriving DecidableEq, Repr

/-- The classification codes of package `aclrouter` (imported as `acr`).  Their numeric
values are not part of `acl.go`, so they are parameters of the embedding. -/
structure AclCodes where
  RuleIPv6 : Nat
  RuleMatchedPass : Nat
  RuleProxy : Nat
  RuleMatchedProxy : Nat
  RuleBlock : Nat
  RulePrivate : Nat
  RulePass : Nat
deriving DecidableEq, Repr

/-- The seven codes are pairwise different constants: the first `switch` of
`canDirectConnect` lists all seven as `case` labels, which Go only compiles when the
integer constants differ. -/
def AclCodes.Distinct (acr : AclCodes) : Prop :=
  [acr.RuleIPv6, acr.RuleMatchedPass, acr.RuleProxy, acr.RuleMatchedProxy,
   acr.RuleBlock, acr.RulePrivate, acr.RulePass].Nodup

instance (acr : AclCodes) : Decidable acr.Distinct := by
  unfold AclCodes.Distinct; infer_instance

/-- The policy flags read by `canDirectConnect`. -/
inductive PolicyFlag where
  | PolicyGlobal
  | PolicyForward
  | PolicyAgent
deriving DecidableEq, Repr

/-- Modelled from the spec: the flag set `Options` behind `proxy.Policy` (its declaration
and `IsSet` are outside `acl.go`); a read-only set of policy flags. -/
structure Options where
  flags : List PolicyFlag
deriving DecidableEq, Repr

/-- The test `proxy.Policy.IsSet(flag)`. -/
def Options.IsSet (o : Options) (f : PolicyFlag) : Bool :=
  o.flags.contains f

/-- Modelled from the spec: the decision cache behind `proxy.DNSCache` (declared outside
`acl.go`), consumed as a get/add key-value store.  Values are `*Rule` pointers, `none`
being the nil pointer.  Eviction is not modelled. -/
structure Cache where
  entries : List (String × Option Rule)
deriving DecidableEq, Repr

/-- The lookup `DNSCache.Get(key)`: `none` when the key is absent. -/
def Cache.Get (c : Cache) (key : String) : Option (Option Rule) :=
  c.entries.lookup key

/-- The insertion `DNSCache.Add(key, value)`: the new value shadows an older one. -/
def Cache.Add (c : Cache) (key : String) (value : Option Rule) : Cache :=
  { entries := (key, value) :: c.entries }

/-- The two transports of the client: `tpq` (query) and `tpd` (agent relay). -/
inductive Transport where
  | tpq
  | tpd
deriving DecidableEq, Repr

/-- The part of an `http.Request` that `canDirectConnect` sets: method, URL and the
header values added with `Header.Add`, in order. -/
structure Request where
  method : String
  url : String
  header : List (String × String)
deriving DecidableEq, Repr

/-- The call `http.NewRequest(method, url, nil)` with its error dropped, as the source
writes it (`req, _ := ...`): a request when `url.Parse` accepts the URL (`parses url`), and
`none`, the nil request, when it does not. -/
def NewRequest (parses : String → Bool) (method url : String) : Option Request :=
  if parses url then some { method := method, url := url, header := [] } else none

/-- The call `req.Header.Add(key, value)`. -/
def Request.HeaderAdd (req : Request) (key value : String) : Request :=
  { req with header := req.header ++ [(key, value)] }

/-- An error returned by `RoundTrip`: whether it implements `net.Error`, what its
`Timeout()` answers, and its `Error()` text. -/
structure NetErr where
  isNetError : Bool
  Timeout : Bool
  Error : String
deriving DecidableEq, Repr

/-- The fields of the `clientRequest` that `canDirectConnect` sets. -/
structure ClientRequest where
  doDNS : Bool
  Real : String
  Auth : String
  Query : String
deriving DecidableEq, Repr

/-- The rule matcher `proxy.ACL`: `Check(target, resolveLocally)` answers a code, an IP
string and whether it reported an error. -/
structure ACL where
  Check : String → Bool → Nat × String × Bool
  RemoteDNS : Bool

/-- The collaborator calls a decision can make, recorded in order. -/
inductive Event where
  | cacheGet (key : String)
  | cacheAdd (key : String) (value : Rule)
  | aclCheck (target : String) (resolveLocally : Bool)
  | roundTrip (transport : Transport) (req : Request)
deriving DecidableEq, Repr

/-- The client as seen by `canDirectConnect`.  `RoundTrip transport req` answers either an
error or the value of `resp.Header.Get(dnsRespHeader)` of the response (the empty string
when the header is absent); `DecodeString` is `base64.StdEncoding.DecodeString`, which
answers the decoded bytes together with whether it reported an error; `parseURL url` is
whether `url.Parse` accepts `url`, that is whether `http.NewRequest` builds a request
for it. -/
structure ProxyClient where
  DNSCache : Cache
  ACL : ACL
  Policy : Options
  Upstream : String
  UserAuth : String
  splitHostPort : String → String
  newRequest : ClientRequest
  genHost : String
  encryptClientRequest : ClientRequest → String
  agentUpstream : String
  fwdURLHeader : String
  RoundTrip : Transport → Request → Except NetErr String
  DecodeString : String → List Nat × Bool
  parseURL : String → Bool

/-- What a call of `canDirectConnect` leaves behind: the named results `r` and `ext`, the
cache after the call, and the collaborator calls made. -/
structure Result where
  r : Nat
  ext : String
  DNSCache : Cache
  trace : List Event
deriving DecidableEq, Repr

/-- The local variables a `return` of `canDirectConnect` hands to the deferred closure:
the named results, `priv`, and the captured `ipstr` and `rule`. -/
structure Ret where
  r : Nat
  ext : String
  priv : Bool
  ipstr : String
  rule : Nat
  trace : List Event
deriving DecidableEq, Repr

/-! ## Library functions used by the decoding step -/

/-- The call `bytes.Split(s, sep)` for a one-byte separator: the pieces of `s` between
the occurrences of `sep`; an empty `s` gives one empty piece. -/
def bytesSplit (s : List Nat) (sep : Nat) : List (List Nat) :=
  match s with
  | [] => [[]]
  | b :: rest =>
    if b = sep then [] :: bytesSplit rest sep
    else
      match bytesSplit rest sep with
      | [] => [[b]]
      | p :: ps => (b :: p) :: ps

/-- The byte of the separator `"."`. -/
def dotByte : Nat := 46

/-- The conversion `string(ip)` of a byte slice. -/
def bytesToString (ip : List Nat) : String :=
  String.mk (ip.map Char.ofNat)

/-- The text `net.IP(ip).String()` of a 4-byte address: dotted decimal. -/
def ipv4String (a b c d : Nat) : String :=
  toString a ++ "." ++ toString b ++ "." ++ toString c ++ "." ++ toString d

/-! ## The standard base64 codec (`encoding/base64`, `StdEncoding`)

The Go library behind `base64.StdEncoding.DecodeString`, embedded so that sample clients
can carry the decoder the program really calls.  Characters are byte values. -/

namespace Base64

/-- The alphabet `encodeStd`: the character of a 6-bit value. -/
def encodeStd (v : Nat) : Nat :=
  if v < 26 then 65 + v
  else if v < 52 then 97 + (v - 26)
  else if v < 62 then 48 + (v - 52)
  else if v = 62 then 43
  else 47

/-- The table `decodeMap` of `StdEncoding`: the 6-bit value of a character of the
alphabet, and `0xff` (255) for every other character. -/
def decodeMap (ch : Nat) : Nat :=
  if 65 ≤ ch ∧ ch ≤ 90 then ch - 65
  else if 97 ≤ ch ∧ ch ≤ 122 then ch - 97 + 26
  else if 48 ≤ ch ∧ ch ≤ 57 then ch - 48 + 52
  else if ch = 43 then 62
  else if ch = 47 then 63
  else 255

/-- The padding character `=`. -/
def padChar : Nat := 61

/-- The loop "skip over newlines" of `decodeQuantum`. -/
def skipNewlines (src : List Nat) : List Nat :=
  match src with
  | [] => []
  | ch :: rest => if ch = 10 ∨ ch = 13 then skipNewlines rest else ch :: rest

/-- The conversion at the end of `decodeQuantum`: the 6-bit values read so far (`dlen` of
them, the missing ones being 0) are packed into 24 bits, of which the first `dlen - 1`
bytes are written.  The shifted values occupy disjoint bits, so the ors of the source are
sums. -/
def quantumBytes (dbuf : List Nat) : List Nat :=
  let val := dbuf.getD 0 0 * 262144 + dbuf.getD 1 0 * 4096 + dbuf.getD 2 0 * 64
    + dbuf.getD 3 0
  [val / 65536 % 256, val / 256 % 256, val % 256].take (dbuf.length - 1)

/-- The method `Encoding.Decode` on `StdEncoding`, one input character at a time: `dbuf`
holds the 6-bit values of the quantum being read and `dst` the bytes written by the
quanta before it.  The result is the bytes written and whether an error is reported; a
quantum that reports an illegal character or wrong padding writes nothing, while trailing
data after correct padding is reported after the quantum has been written. -/
def decodeFrom (src : List Nat) (dbuf : List Nat) (dst : List Nat) : List Nat × Bool :=
  match src with
  | [] => if dbuf.length = 0 then (dst, false) else (dst, true)
  | ch :: rest =>
    if decodeMap ch ≠ 255 then
      if dbuf.length = 3 then decodeFrom rest [] (dst ++ quantumBytes (dbuf ++ [decodeMap ch]))
      else decodeFrom rest (dbuf ++ [decodeMap ch]) dst
    else if ch = 10 ∨ ch = 13 then decodeFrom rest dbuf dst
    else if ch ≠ padChar then (dst, true)
    else if dbuf.length < 2 then (dst, true)
    else if dbuf.length = 2 then
      match skipNewlines rest with
      | [] => (dst, true)
      | ch2 :: rest2 =>
        if ch2 ≠ padChar then (dst, true)
        else (dst ++ quantumBytes dbuf, decide (skipNewlines rest2 ≠ []))
    else (dst ++ quantumBytes dbuf, decide (skipNewlines rest ≠ []))

/-- The bytes of a Go string. -/
def stringBytes (s : String) : List Nat :=
  s.data.map Char.toNat

/-- The method `StdEncoding.DecodeString`: the decoded bytes and whether an error is
reported. -/
def DecodeString (s : String) : List Nat × Bool :=
  decodeFrom (stringBytes s) [] []

/-- The method `Encoding.Encode` on `StdEncoding`: 3 bytes give 4 characters, and a last
group of 1 or 2 bytes is padded with `=`. -/
def encode (src : List Nat) : List Nat :=
  match src with
  | [] => []
  | [b0] =>
    [encodeStd (b0 * 65536 / 262144 % 64), encodeStd (b0 * 65536 / 4096 % 64),
     padChar, padChar]
  | [b0, b1] =>
    [encodeStd ((b0 * 65536 + b1 * 256) / 262144 % 64),
     encodeStd ((b0 * 65536 + b1 * 256) / 4096 % 64),
     encodeStd ((b0 * 65536 + b1 * 256) / 64 % 64), padChar]
  | b0 :: b1 :: b2 :: rest =>
    [encodeStd ((b0 * 65536 + b1 * 256 + b2) / 262144 % 64),
     encodeStd ((b0 * 65536 + b1 * 256 + b2) / 4096 % 64),
     encodeStd ((b0 * 65536 + b1 * 256 + b2) / 64 % 64),
     encodeStd ((b0 * 65536 + b1 * 256 + b2) % 64)] ++ encode rest

/-- The method `StdEncoding.EncodeToString`. -/
def EncodeToString (src : List Nat) : String :=
  String.mk ((encode src).map Char.ofNat)

end Base64

/-! ## `canDirectConnect` -/

/-- The deferred closure of `canDirectConnect`: under the Global policy a lookup that is
not `priv` is overridden to `(ruleProxy, "Global")`; every other lookup is added to the
cache. -/
def deferred (proxy : ProxyClient) (host : String) (ret : Ret) : Result :=
  if proxy.Policy.IsSet PolicyFlag.PolicyGlobal && !ret.priv then
    { r := ruleProxy, ext := "Global", DNSCache := proxy.DNSCache, trace := ret.trace }
  else
    { r := ret.r, ext := ret.ext,
      DNSCache := proxy.DNSCache.Add host (some ⟨ret.ipstr, ret.r, ret.r, ret.rule⟩),
      trace := ret.trace ++ [Event.cacheAdd host ⟨ret.ipstr, ret.r, ret.r, ret.rule⟩] }

/-- The label `ACL_CHECK`: the second matcher pass on the resolved IP string. -/
def aclCheck (acr : AclCodes) (proxy : ProxyClient) (ipstr : String)
    (trace : List Event) : Ret :=
  let rule := (proxy.ACL.Check ipstr true).1
  let trace := trace ++ [Event.aclCheck ipstr true]
  if rule = acr.RulePass ∨ rule = acr.RuleMatchedPass then
    ⟨rulePass, "Pass (by remote)", false, ipstr, rule, trace⟩
  else if rule = acr.RuleProxy ∨ rule = acr.RuleMatchedProxy then
    ⟨ruleProxy, "Proxy (by remote)", false, ipstr, rule, trace⟩
  else if rule = acr.RuleBlock then
    ⟨ruleBlock, "Block (by remote)", false, ipstr, rule, trace⟩
  else if rule = acr.RulePrivate then
    ⟨ruleProxy, "Private IP (by remote)", false, ipstr, rule, trace⟩
  else
    ⟨ruleProxy, "Unknown", false, ipstr, rule, trace⟩

/-- The request of the remote resolution and the transport it is sent over
(lines 80 to 104), or `none` when building it panics.  The source drops the error of
`http.NewRequest`, so a URL that does not parse leaves `req` nil: `req.Header.Add`
dereferences it at line 98 (Agent) and at line 103 (Forward), and without either flag the
nil request is handed to `RoundTrip` at line 106, where the transport (an
`http.Transport`) dereferences it.  Under Agent the request of line 93 is replaced
before it is used, so whether its URL parses plays no part. -/
def dnsRequest (proxy : ProxyClient) (host : String) : Option (Transport × Request) :=
  let cr : ClientRequest :=
    { proxy.newRequest with doDNS := true, Real := "dns", Auth := proxy.UserAuth,
                            Query := host }
  let dnsloc := "http://" ++ proxy.Upstream
  let trueloc := "http://" ++ proxy.genHost ++ "/" ++ proxy.encryptClientRequest cr
  let dnsloc := if !proxy.Policy.IsSet PolicyFlag.PolicyForward then trueloc else dnsloc
  let req := NewRequest proxy.parseURL "GET" dnsloc
  let transport := Transport.tpq
  let agent : Option (Transport × Option Request) :=
    if proxy.Policy.IsSet PolicyFlag.PolicyAgent then
      match NewRequest proxy.parseURL "GET" proxy.agentUpstream with
      | none => none
      | some areq =>
        some (Transport.tpd, some (areq.HeaderAdd proxy.fwdURLHeader (host ++ ",dns")))
    else some (transport, req)
  match agent with
  | none => none
  | some (_, none) => none
  | some (transport, some req) =>
    if proxy.Policy.IsSet PolicyFlag.PolicyForward then
      some (transport, req.HeaderAdd proxy.fwdURLHeader trueloc)
    else some (transport, req)

/-- The decoding of the resolution header (lines 118 to 128): the resolved IP string
handed to `ACL_CHECK`, or `none` where the source returns with "Bad response".  The test
`ip == nil` of the source is covered by the length test, a nil slice having length 0. -/
def resolvedIP (proxy : ProxyClient) (dnsResp : String) : Option String :=
  let ip := (proxy.DecodeString dnsResp).1
  let err := (proxy.DecodeString dnsResp).2
  if (bytesSplit ip dotByte).length = 4 then some (bytesToString ip)
  else
    match ip with
    | [a, b, c, d] => if err then none else some (ipv4String a b c d)
    | _ => none

/-- The remote resolution (lines 79 to 142), entered with the provisional outcome `r`
and the `ipstr` and `rule` of the first matcher pass; `none` when building the request
panics. -/
def queryUpstream (acr : AclCodes) (proxy : ProxyClient) (host : String) (r : Nat)
    (ipstr : String) (rule : Nat) (trace : List Event) : Option Ret :=
  match dnsRequest proxy host with
  | none => none
  | some (transport, req) =>
    let trace := trace ++ [Event.roundTrip transport req]
    match proxy.RoundTrip transport req with
    | Except.error e =>
      if e.isNetError && e.Timeout then
        some ⟨r, "Timeout", false, ipstr, rule, trace⟩
      else
        some ⟨r, "Network error: " ++ e.Error, false, ipstr, rule, trace⟩
    | Except.ok dnsResp =>
      match resolvedIP proxy dnsResp with
      | none => some ⟨r, "Bad response", false, ipstr, rule, trace⟩
      | some ip => some (aclCheck acr proxy ip trace)

/-- The body of `canDirectConnect` after a cache miss, up to its `return` (lines 41 to
142); the deferred closure is applied by the caller.  The result is `none` when the
remote resolution panics. -/
def onMiss (acr : AclCodes) (proxy : ProxyClient) (host : String)
    (trace : List Event) : Option Ret :=
  let rule := (proxy.ACL.Check host (!proxy.ACL.RemoteDNS)).1
  let ipstr := (proxy.ACL.Check host (!proxy.ACL.RemoteDNS)).2.1
  let trace := trace ++ [Event.aclCheck host (!proxy.ACL.RemoteDNS)]
  let doubts (r : Nat) : Option Ret :=
    if proxy.Policy.IsSet PolicyFlag.PolicyGlobal then
      some ⟨r, "", false, ipstr, rule, trace⟩
    else queryUpstream acr proxy host r ipstr rule trace
  if rule = acr.RuleIPv6 then
    some ⟨ruleProxy, "Proxy (IPv6)", false, ipstr, rule, trace⟩
  else if rule = acr.RuleMatchedPass then
    some ⟨rulePass, "Pass", false, ipstr, rule, trace⟩
  else if rule = acr.RuleProxy ∨ rule = acr.RuleMatchedProxy then
    some ⟨ruleProxy, "Proxy", false, ipstr, rule, trace⟩
  else if rule = acr.RuleBlock then
    some ⟨ruleBlock, "Block", false, ipstr, rule, trace⟩
  else if rule = acr.RulePrivate then
    some ⟨rulePass, "Private IP", true, ipstr, rule, trace⟩
  else if rule = acr.RulePass then
    if !proxy.ACL.RemoteDNS then
      some ⟨rulePass, "Pass (trust local DNS)", false, ipstr, rule, trace⟩
    else doubts rulePass
  else doubts ruleProxy

/-- The method `ProxyClient.canDirectConnect(host)`; `none` is a panic: the `panic("?")`
of the cache-hit switch, or the nil request of the remote resolution. -/
def canDirectConnect (acr : AclCodes) (proxy : ProxyClient) (host : String) :
    Option Result :=
  let host := proxy.splitHostPort host
  match proxy.DNSCache.Get host with
  | some (some c) =>
    if c.Ans = ruleProxy then
      some ⟨ruleProxy, "Proxy (cached)", proxy.DNSCache, [Event.cacheGet host]⟩
    else if c.Ans = rulePass then
      some ⟨rulePass, "Pass (cached)", proxy.DNSCache, [Event.cacheGet host]⟩
    else if c.Ans = ruleBlock then
      some ⟨ruleBlock, "Block (cached)", proxy.DNSCache, [Event.cacheGet host]⟩
    else none
  | _ => (onMiss acr proxy host [Event.cacheGet host]).map (deferred proxy host)

/-! ## Observations on a call and on a run of calls -/

/-- Whether a recorded collaborator call is a transport round trip. -/
def Event.isRoundTrip (e : Event) : Bool :=
  match e with
  | Event.roundTrip _ _ => true
  | _ => false

/-- The number of requests a call sent: the round trips among its collaborator calls. -/
def roundTrips (trace : List Event) : Nat :=
  (trace.filter Event.isRoundTrip).length

/-- Modelled from the spec: the block cache behind `proxy.ACLCache` of the server (declared
outside `acl.go`), a get/add store of booleans keyed by host.  Eviction is not
modelled. -/
structure BoolCache where
  entries : List (String × Bool)
deriving DecidableEq, Repr

/-- The lookup `ACLCache.Get(key)`. -/
def BoolCache.Get (c : BoolCache) (key : String) : Option Bool :=
  c.entries.lookup key

/-- The insertion `ACLCache.Add(key, value)`. -/
def BoolCache.Add (c : BoolCache) (key : String) (value : Bool) : BoolCache :=
  { entries := (key, value) :: c.entries }

/-- The collaborator calls of `isBlocked`, recorded in order. -/
inductive ServerEvent where
  | cacheGet (key : String)
  | cacheAdd (key : String) (value : Bool)
  | aclCheck (target : String) (resolveLocally : Bool)
deriving DecidableEq, Repr

/-- The server as seen by `isBlocked`; `ACL` is `none` when no matcher is configured
(`proxy.ACL == nil`). -/
structure ProxyServer where
  ACL : Option ACL
  ACLCache : BoolCache
  splitHostPort : String → String

/-- What a call of `isBlocked` leaves behind: the result `bk`, the block cache after the
call, and the collaborator calls made. -/
structure BlockResult where
  bk : Bool
  ACLCache : BoolCache
  trace : List ServerEvent
deriving DecidableEq, Repr

/-- The method `ProxyServer.isBlocked(host)`. -/
def isBlocked (acr : AclCodes) (proxy : ProxyServer) (host : String) : BlockResult :=
  match proxy.ACL with
  | none => { bk := false, ACLCache := proxy.ACLCache, trace := [] }
  | some acl =>
    let host := proxy.splitHostPort host
    match proxy.ACLCache.Get host with
    | some c => { bk := c, ACLCache := proxy.ACLCache, trace := [ServerEvent.cacheGet host] }
    | none =>
      let rule := (acl.Check host true).1
      let bk := decide (rule = acr.RuleBlock)
      { bk := bk, ACLCache := proxy.ACLCache.Add host bk,
        trace := [ServerEvent.cacheGet host, ServerEvent.aclCheck host true,
                  ServerEvent.cacheAdd host bk] }

/-! ## Sample clients -/

/-- The codes as package `aclrouter` numbers them. -/
def sampleCodes : AclCodes :=
  { RuleBlock := 0, RulePrivate := 1, RuleMatchedPass := 2, RulePass := 3,
    RuleMatchedProxy := 4, RuleProxy := 5, RuleIPv6 := 6 }

/-- A port stripper for the sample clients: the text before the first colon. -/
def sampleSplit (host : String) : String :=
  String.mk (host.data.takeWhile (fun ch => ch != ':'))

/-- A URL parser for the sample clients: it rejects the URLs that hold a space, as
`url.Parse` does for a space in the host. -/
def sampleParse (url : String) : Bool :=
  !url.data.contains ' '

/-- A client whose matcher answers `code` for the host `example.com` and `code2` for
every other target, whose transports answer `rt`, and whose decoder answers `decoded`. -/
def sampleClient (entries : List (String × Option Rule)) (code code2 : Nat)
    (remoteDNS : Bool) (flags : List PolicyFlag) (rt : Except NetErr String)
    (decoded : List Nat × Bool) : ProxyClient :=
  { DNSCache := { entries := entries },
    ACL := { Check := fun target _ =>
               if target = "example.com" then (code, "", false) else (code2, target, false),
             RemoteDNS := remoteDNS },
    Policy := { flags := flags },
    Upstream := "upstream:8100",
    UserAuth := "user",
    splitHostPort := sampleSplit,
    newRequest := { doDNS := false, Real := "", Auth := "", Query := "" },
    genHost := "dummy.com",
    encryptClientRequest := fun cr => "enc-" ++ cr.Query,
    agentUpstream := "http://agent:8100",
    fwdURLHeader := "X-Forwarded-Url",
    RoundTrip := fun _ _ => rt,
    DecodeString := fun _ => decoded,
    parseURL := sampleParse }

/-- The sample client with the decoder the program calls,
`base64.StdEncoding.DecodeString`. -/
def stdClient (entries : List (String × Option Rule)) (code code2 : Nat)
    (remoteDNS : Bool) (flags : List PolicyFlag) (rt : Except NetErr String) :
    ProxyClient :=
  { sampleClient entries code code2 remoteDNS flags rt ([], false) with
    DecodeString := Base64.DecodeString }

/-- A server whose matcher, when configured, answers `code` for every target and reports
an error when `failing` is set. -/
def sampleServer (configured : Bool) (code : Nat) (failing : Bool)
    (entries : List (String × Bool)) : ProxyServer :=
  { ACL := if configured then
             some { Check := fun target _ => (code, target, failing), RemoteDNS := false }
           else none,
    ACLCache := { entries := entries },
    splitHostPort := sampleSplit }

/-! ## Shared lemmas -/

/-- On a cache miss `canDirectConnect` is the miss body followed by the deferred closure. -/
theorem canDirectConnect_of_miss (acr : AclCodes) (proxy : ProxyClient) (host : String)
    (hmiss : proxy.DNSCache.Get (proxy.splitHostPort host) = none) :
    canDirectConnect acr proxy host =
      (onMiss acr proxy (proxy.splitHostPort host)
        [Event.cacheGet (proxy.splitHostPort host)]).map
        (deferred proxy (proxy.splitHostPort host)) := by
  simp [canDirectConnect, hmiss]

/-- A lookup right after `Add` under the same key finds the added value. -/
theorem Cache.Get_Add (c : Cache) (key : String) (value : Option Rule) :
    (c.Add key value).Get key = some value := by
  simp [Cache.Get, Cache.Add, List.lookup]

/-- Distinctness of the codes, spelled out as the inequalities the switches need. -/
theorem AclCodes.Distinct.ne (acr : AclCodes) (hd : acr.Distinct) :
    (acr.RuleIPv6 ≠ acr.RuleMatchedPass ∧ acr.RuleIPv6 ≠ acr.RuleProxy ∧
      acr.RuleIPv6 ≠ acr.RuleMatchedProxy ∧ acr.RuleIPv6 ≠ acr.RuleBlock ∧
      acr.RuleIPv6 ≠ acr.RulePrivate ∧ acr.RuleIPv6 ≠ acr.RulePass) ∧
    (acr.RuleMatchedPass ≠ acr.RuleProxy ∧ acr.RuleMatchedPass ≠ acr.RuleMatchedProxy ∧
      acr.RuleMatchedPass ≠ acr.RuleBlock ∧ acr.RuleMatchedPass ≠ acr.RulePrivate ∧
      acr.RuleMatchedPass ≠ acr.RulePass) ∧
    (acr.RuleProxy ≠ acr.RuleMatchedProxy ∧ acr.RuleProxy ≠ acr.RuleBlock ∧
      acr.RuleProxy ≠ acr.RulePrivate ∧ acr.RuleProxy ≠ acr.RulePass) ∧
    (acr.RuleMatchedProxy ≠ acr.RuleBlock ∧ acr.RuleMatchedProxy ≠ acr.RulePrivate ∧
      acr.RuleMatchedProxy ≠ acr.RulePass) ∧
    (acr.RuleBlock ≠ acr.RulePrivate ∧ acr.RuleBlock ≠ acr.RulePass) ∧
    acr.RulePrivate ≠ acr.RulePass := by
  simp only [AclCodes.Distinct, List.nodup_cons, List.mem_cons, List.mem_singleton,
    not_or, List.not_mem_nil, not_false_eq_true, List.nodup_nil, and_true] at hd
  tauto

/-- When the first-pass switch does not return (unqualified Pass with remote DNS enabled,
or a code outside the seven) and Global is not set, the miss body is the remote
resolution entered with the provisional outcome of the switch. -/
theorem onMiss_of_doubt (acr : AclCodes) (proxy : ProxyClient) (key : String)
    (trace : List Event) (hd : acr.Distinct)
    (hglobal : proxy.Policy.IsSet PolicyFlag.PolicyGlobal = false)
    (hdoubt : ((proxy.ACL.Check key (!proxy.ACL.RemoteDNS)).1 = acr.RulePass ∧
        proxy.ACL.RemoteDNS = true) ∨
      (proxy.ACL.Check key (!proxy.ACL.RemoteDNS)).1 ∉
        [acr.RuleIPv6, acr.RuleMatchedPass, acr.RuleProxy, acr.RuleMatchedProxy,
         acr.RuleBlock, acr.RulePrivate, acr.RulePass]) :
    onMiss acr proxy key trace =
      queryUpstream acr proxy key
        (if (proxy.ACL.Check key (!proxy.ACL.RemoteDNS)).1 = acr.RulePass then rulePass
         else ruleProxy)
        (proxy.ACL.Check key (!proxy.ACL.RemoteDNS)).2.1
        (proxy.ACL.Check key (!proxy.ACL.RemoteDNS)).1
        (trace ++ [Event.aclCheck key (!proxy.ACL.RemoteDNS)]) := by
  obtain ⟨h1, h2, h3, h4, h5, h6⟩ := AclCodes.Distinct.ne acr hd
  rcases hdoubt with ⟨hr, hdns⟩ | hr
  · have hr2 : (proxy.ACL.Check key false).1 = acr.RulePass := by simpa [hdns] using hr
    simp [onMiss, hglobal, hr2, hdns, h1.2.2.2.2.2.symm, h2.2.2.2.2.symm, h3.2.2.2.symm,
      h4.2.2.symm, h5.2.symm, h6.symm]
  · simp only [List.mem_cons, List.mem_singleton, not_or, List.not_mem_nil,
      not_false_eq_true, and_true] at hr
    simp [onMiss, hglobal, hr]

/-- The remote resolution when the request is built and the round trip returns an
error. -/
theorem queryUpstream_of_error (acr : AclCodes) (proxy : ProxyClient) (key : String)
    (r : Nat) (ipstr : String) (rule : Nat) (trace : List Event)
    (transport : Transport) (req : Request) (e : NetErr)
    (hreq : dnsRequest proxy key = some (transport, req))
    (hrt : proxy.RoundTrip transport req = Except.error e) :
    queryUpstream acr proxy key r ipstr rule trace =
      some { r := r,
             ext := if e.isNetError = true ∧ e.Timeout = true then "Timeout"
                    else "Network error: " ++ e.Error,
             priv := false, ipstr := ipstr, rule := rule,
             trace := trace ++ [Event.roundTrip transport req] } := by
  simp only [queryUpstream, hreq, hrt]
  by_cases h : e.isNetError = true ∧ e.Timeout = true
  · simp [h]
  · have h2 : (e.isNetError && e.Timeout) = false := by
      cases hn : e.isNetError <;> cases ht : e.Timeout <;> simp_all
    simp [h, h2]

/-- The remote resolution when the request is built and the response does not decode to
an IP string. -/
theorem queryUpstream_of_bad_response (acr : AclCodes) (proxy : ProxyClient)
    (key : String) (r : Nat) (ipstr : String) (rule : Nat) (trace : List Event)
    (transport : Transport) (req : Request) (dnsResp : String)
    (hreq : dnsRequest proxy key = some (transport, req))
    (hrt : proxy.RoundTrip transport req = Except.ok dnsResp)
    (hbad : resolvedIP proxy dnsResp = none) :
    queryUpstream acr proxy key r ipstr rule trace =
      some { r := r, ext := "Bad response", priv := false, ipstr := ipstr, rule := rule,
             trace := trace ++ [Event.roundTrip transport req] } := by
  simp [queryUpstream, hreq, hrt, hbad]

/-- The remote resolution when the request is built and the response decodes to the IP
string `s`. -/
theorem queryUpstream_of_resolved (acr : AclCodes) (proxy : ProxyClient)
    (key : String) (r : Nat) (ipstr : String) (rule : Nat) (trace : List Event)
    (transport : Transport) (req : Request) (dnsResp s : String)
    (hreq : dnsRequest proxy key = some (transport, req))
    (hrt : proxy.RoundTrip transport req = Except.ok dnsResp)
    (hres : resolvedIP proxy dnsResp = some s) :
    queryUpstream acr proxy key r ipstr rule trace =
      some (aclCheck acr proxy s (trace ++ [Event.roundTrip transport req])) := by
  simp [queryUpstream, hreq, hrt, hres]

/-- When the request is built and the remote resolution fails, it returns the
provisional outcome it was entered with and leaves `priv`, `ipstr` and `rule` as the
first pass set them. -/
theorem queryUpstream_of_failure (acr : AclCodes) (proxy : ProxyClient) (key : String)
    (r : Nat) (ipstr : String) (rule : Nat) (trace : List Event)
    (transport : Transport) (req : Request)
    (hreq : dnsRequest proxy key = some (transport, req))
    (hfail : (∃ e : NetErr, proxy.RoundTrip transport req = Except.error e) ∨
      (∃ dnsResp : String,
        proxy.RoundTrip transport req = Except.ok dnsResp ∧
        resolvedIP proxy dnsResp = none)) :
    ∃ ext : String,
      queryUpstream acr proxy key r ipstr rule trace =
        some { r := r, ext := ext, priv := false, ipstr := ipstr, rule := rule,
               trace := trace ++ [Event.roundTrip transport req] } := by
  rcases hfail with ⟨e, he⟩ | ⟨dnsResp, hok, hbad⟩
  · exact ⟨_, queryUpstream_of_error acr proxy key r ipstr rule trace transport req e
      hreq he⟩
  · exact ⟨_, queryUpstream_of_bad_response acr proxy key r ipstr rule trace transport req
      dnsResp hreq hok hbad⟩

/-- A first-pass code that is one of the seven and is not an unqualified Pass with remote
DNS enabled makes the first switch return: the miss body returns without reaching the
remote resolution, and `priv` is set exactly for the code Private. -/
theorem onMiss_of_definitive (acr : AclCodes) (proxy : ProxyClient) (key : String)
    (trace : List Event) (hd : acr.Distinct)
    (hdef : (proxy.ACL.Check key (!proxy.ACL.RemoteDNS)).1 = acr.RuleIPv6 ∨
      (proxy.ACL.Check key (!proxy.ACL.RemoteDNS)).1 = acr.RuleMatchedPass ∨
      (proxy.ACL.Check key (!proxy.ACL.RemoteDNS)).1 = acr.RuleProxy ∨
      (proxy.ACL.Check key (!proxy.ACL.RemoteDNS)).1 = acr.RuleMatchedProxy ∨
      (proxy.ACL.Check key (!proxy.ACL.RemoteDNS)).1 = acr.RuleBlock ∨
      (proxy.ACL.Check key (!proxy.ACL.RemoteDNS)).1 = acr.RulePrivate ∨
      ((proxy.ACL.Check key (!proxy.ACL.RemoteDNS)).1 = acr.RulePass ∧
        proxy.ACL.RemoteDNS = false)) :
    ∃ (r : Nat) (ext : String),
      onMiss acr proxy key trace =
        some { r := r, ext := ext,
               priv := decide ((proxy.ACL.Check key (!proxy.ACL.RemoteDNS)).1
                 = acr.RulePrivate),
               ipstr := (proxy.ACL.Check key (!proxy.ACL.RemoteDNS)).2.1,
               rule := (proxy.ACL.Check key (!proxy.ACL.RemoteDNS)).1,
               trace := trace ++ [Event.aclCheck key (!proxy.ACL.RemoteDNS)] } := by
  obtain ⟨h1, h2, h3, h4, h5, h6⟩ := AclCodes.Distinct.ne acr hd
  obtain ⟨h11, h12, h13, h14, h15, h16⟩ := h1
  obtain ⟨h22, h23, h24, h25, h26⟩ := h2
  obtain ⟨h33, h34, h35, h36⟩ := h3
  obtain ⟨h44, h45, h46⟩ := h4
  obtain ⟨h55, h56⟩ := h5
  rcases hdef with h | h | h | h | h | h | ⟨h, hdns⟩
  · exact ⟨ruleProxy, "Proxy (IPv6)", by simp [onMiss, h, h15]⟩
  · exact ⟨rulePass, "Pass", by simp [onMiss, h, h25, Ne.symm h11]⟩
  · exact ⟨ruleProxy, "Proxy", by simp [onMiss, h, h35, Ne.symm h12, Ne.symm h22]⟩
  · exact ⟨ruleProxy, "Proxy", by simp [onMiss, h, h45, Ne.symm h13, Ne.symm h23]⟩
  · exact ⟨ruleBlock, "Block", by
      simp [onMiss, h, h55, Ne.symm h14, Ne.symm h24, Ne.symm h34, Ne.symm h44]⟩
  · exact ⟨rulePass, "Private IP", by
      simp [onMiss, h, Ne.symm h15, Ne.symm h25, Ne.symm h35, Ne.symm h45, Ne.symm h55]⟩
  · have hr2 : (proxy.ACL.Check key true).1 = acr.RulePass := by simpa [hdns] using h
    exact ⟨rulePass, "Pass (trust local DNS)", by
      simp [onMiss, hdns, hr2, Ne.symm h16, Ne.symm h26, Ne.symm h36, Ne.symm h46,
        Ne.symm h56, Ne.symm h6]⟩

/-- The first-pass code Private makes the miss body return `(rulePass, "Private IP")` with
`priv` set, after the matcher call alone. -/
theorem onMiss_of_private (acr : AclCodes) (proxy : ProxyClient) (key : String)
    (trace : List Event) (hd : acr.Distinct)
    (hrule : (proxy.ACL.Check key (!proxy.ACL.RemoteDNS)).1 = acr.RulePrivate) :
    onMiss acr proxy key trace =
      some { r := rulePass, ext := "Private IP", priv := true,
             ipstr := (proxy.ACL.Check key (!proxy.ACL.RemoteDNS)).2.1,
             rule := acr.RulePrivate,
             trace := trace ++ [Event.aclCheck key (!proxy.ACL.RemoteDNS)] } := by
  obtain ⟨h1, h2, h3, h4, h5, -⟩ := AclCodes.Distinct.ne acr hd
  simp [onMiss, hrule, h1.2.2.2.2.1.symm, h2.2.2.2.1.symm, h3.2.2.1.symm,
    h4.2.1.symm, h5.1.symm]

/-! ## The cache-hit fast path -/

/-- C1: when the cache holds a non-nil entry for the port-stripped host whose outcome is
one of `ruleProxy`, `rulePass`, `ruleBlock`, then `canDirectConnect` returns that outcome
with the reason "Proxy (cached)", "Pass (cached)" or "Block (cached)", for every policy
(Global included); the only collaborator call is the cache lookup (no matcher call, no
transport, no cache insertion) and the cache is left as it was. -/
theorem C1_cache_hit_fast_path (acr : AclCodes) (proxy : ProxyClient) (host : String)
    (c : Rule)
    (hget : proxy.DNSCache.Get (proxy.splitHostPort host) = some (some c))
    (hans : c.Ans = ruleProxy ∨ c.Ans = rulePass ∨ c.Ans = ruleBlock) :
    canDirectConnect acr proxy host =
      some { r := c.Ans,
             ext := if c.Ans = ruleProxy then "Proxy (cached)"
                    else if c.Ans = rulePass then "Pass (cached)" else "Block (cached)",
             DNSCache := proxy.DNSCache,
             trace := [Event.cacheGet (proxy.splitHostPort host)] } := by
  rcases hans with h | h | h <;>
    simp [canDirectConnect, hget, h, ruleProxy, rulePass, ruleBlock]

/-- C1 at a cached Block entry under the Global policy. -/
theorem C1_cache_hit_fast_path_witness :
    canDirectConnect sampleCodes
        (sampleClient [("example.com", some ⟨"10.0.0.1", 2, 2, 0⟩)] 5 5 true
          [PolicyFlag.PolicyGlobal] (Except.ok "") ([], false)) "example.com:80" =
      some { r := 2, ext := "Block (cached)",
             DNSCache := { entries := [("example.com", some ⟨"10.0.0.1", 2, 2, 0⟩)] },
             trace := [Event.cacheGet "example.com"] } :=
  C1_cache_hit_fast_path sampleCodes
    (sampleClient [("example.com", some ⟨"10.0.0.1", 2, 2, 0⟩)] 5 5 true
      [PolicyFlag.PolicyGlobal] (Except.ok "") ([], false)) "example.com:80"
    ⟨"10.0.0.1", 2, 2, 0⟩ (by decide) (by decide)

/-! ## Block decisions -/

/-- C2: for a host without cache entry, Global not set and the matcher answering Block,
`canDirectConnect` returns `(ruleBlock, "Block")` and adds an entry for the host; the
following call, on the cache the first call left, returns `(ruleBlock, "Block (cached)")`
and its only collaborator call is the cache lookup (the matcher is not called). -/
theorem C2_block_cached_and_replayed (acr : AclCodes) (proxy : ProxyClient)
    (host : String) (hd : acr.Distinct)
    (hmiss : proxy.DNSCache.Get (proxy.splitHostPort host) = none)
    (hglobal : proxy.Policy.IsSet PolicyFlag.PolicyGlobal = false)
    (hrule : (proxy.ACL.Check (proxy.splitHostPort host) (!proxy.ACL.RemoteDNS)).1
      = acr.RuleBlock) :
    ∃ entry : Rule,
      entry.Ans = ruleBlock ∧
      canDirectConnect acr proxy host =
        some { r := ruleBlock, ext := "Block",
               DNSCache := proxy.DNSCache.Add (proxy.splitHostPort host) (some entry),
               trace := [Event.cacheGet (proxy.splitHostPort host),
                         Event.aclCheck (proxy.splitHostPort host) (!proxy.ACL.RemoteDNS),
                         Event.cacheAdd (proxy.splitHostPort host) entry] } ∧
      canDirectConnect acr
          { proxy with
            DNSCache := proxy.DNSCache.Add (proxy.splitHostPort host) (some entry) } host =
        some { r := ruleBlock, ext := "Block (cached)",
               DNSCache := proxy.DNSCache.Add (proxy.splitHostPort host) (some entry),
               trace := [Event.cacheGet (proxy.splitHostPort host)] } := by
  obtain ⟨h1, h2, h3, h4, -, -⟩ := AclCodes.Distinct.ne acr hd
  refine ⟨⟨(proxy.ACL.Check (proxy.splitHostPort host) (!proxy.ACL.RemoteDNS)).2.1,
    ruleBlock, ruleBlock, acr.RuleBlock⟩, rfl, ?_, ?_⟩
  · rw [canDirectConnect_of_miss acr proxy host hmiss]
    simp [onMiss, deferred, hglobal, hrule, h1.2.2.2.1.symm, h2.2.2.1.symm,
      h3.2.1.symm, h4.1.symm]
  · simp [canDirectConnect, Cache.Get_Add, ruleProxy, rulePass, ruleBlock]

/-- C2 at a host the matcher blocks. -/
theorem C2_block_cached_and_replayed_witness :
    ∃ entry : Rule,
      entry.Ans = ruleBlock ∧
      canDirectConnect sampleCodes
          (sampleClient [] 0 0 true [] (Except.ok "") ([], false)) "example.com:443" =
        some { r := ruleBlock, ext := "Block",
               DNSCache := { entries := [("example.com", some entry)] },
               trace := [Event.cacheGet "example.com",
                         Event.aclCheck "example.com" false,
                         Event.cacheAdd "example.com" entry] } ∧
      canDirectConnect sampleCodes
          (sampleClient [("example.com", some entry)] 0 0 true [] (Except.ok "")
            ([], false)) "example.com:443" =
        some { r := ruleBlock, ext := "Block (cached)",
               DNSCache := { entries := [("example.com", some entry)] },
               trace := [Event.cacheGet "example.com"] } :=
  C2_block_cached_and_replayed sampleCodes
    (sampleClient [] 0 0 true [] (Except.ok "") ([], false)) "example.com:443"
    (by decide) (by decide) (by decide) (by decide)

/-! ## The Global override and the Private exemption -/

/-- C3: for a host without cache entry, with the Global policy set and a first-pass code
other than Private (any of the other six codes or an unrecognised one),
`canDirectConnect` returns `(ruleProxy, "Global")`, the cache after the call is the
cache before it, and the only collaborator calls are the cache lookup and the first
matcher call. -/
theorem C3_global_override (acr : AclCodes) (proxy : ProxyClient) (host : String)
    (hmiss : proxy.DNSCache.Get (proxy.splitHostPort host) = none)
    (hglobal : proxy.Policy.IsSet PolicyFlag.PolicyGlobal = true)
    (hrule : (proxy.ACL.Check (proxy.splitHostPort host) (!proxy.ACL.RemoteDNS)).1
      ≠ acr.RulePrivate) :
    canDirectConnect acr proxy host =
      some { r := ruleProxy, ext := "Global", DNSCache := proxy.DNSCache,
             trace := [Event.cacheGet (proxy.splitHostPort host),
                       Event.aclCheck (proxy.splitHostPort host)
                         (!proxy.ACL.RemoteDNS)] } := by
  rw [canDirectConnect_of_miss acr proxy host hmiss]
  simp only [onMiss]
  split_ifs <;> simp_all [deferred]

/-- C3 at an unqualified Pass code with remote DNS enabled, and at a Block code. -/
theorem C3_global_override_witness :
    canDirectConnect sampleCodes
        (sampleClient [] 3 5 true [PolicyFlag.PolicyGlobal] (Except.ok "") ([], false))
        "example.com:80" =
      some { r := ruleProxy, ext := "Global", DNSCache := { entries := [] },
             trace := [Event.cacheGet "example.com",
                       Event.aclCheck "example.com" false] } ∧
    canDirectConnect sampleCodes
        (sampleClient [] 0 5 false [PolicyFlag.PolicyGlobal] (Except.ok "") ([], false))
        "example.com:80" =
      some { r := ruleProxy, ext := "Global", DNSCache := { entries := [] },
             trace := [Event.cacheGet "example.com",
                       Event.aclCheck "example.com" true] } :=
  ⟨C3_global_override sampleCodes
      (sampleClient [] 3 5 true [PolicyFlag.PolicyGlobal] (Except.ok "") ([], false))
      "example.com:80" (by decide) (by decide) (by decide),
   C3_global_override sampleCodes
      (sampleClient [] 0 5 false [PolicyFlag.PolicyGlobal] (Except.ok "") ([], false))
      "example.com:80" (by decide) (by decide) (by decide)⟩

/-- C4: for a host without cache entry whose first-pass code is Private,
`canDirectConnect` returns `(rulePass, "Private IP")` whatever the Global flag is (no
hypothesis is made on the policy), and no transport round trip is made. -/
theorem C4_private_exempt_from_global (acr : AclCodes) (proxy : ProxyClient)
    (host : String) (hd : acr.Distinct)
    (hmiss : proxy.DNSCache.Get (proxy.splitHostPort host) = none)
    (hrule : (proxy.ACL.Check (proxy.splitHostPort host) (!proxy.ACL.RemoteDNS)).1
      = acr.RulePrivate) :
    ∃ res : Result,
      canDirectConnect acr proxy host = some res ∧
      res.r = rulePass ∧ res.ext = "Private IP" ∧
      ∀ (transport : Transport) (req : Request),
        Event.roundTrip transport req ∉ res.trace := by
  rw [canDirectConnect_of_miss acr proxy host hmiss,
    onMiss_of_private acr proxy _ _ hd hrule, Option.map_some']
  refine ⟨_, rfl, ?_, ?_, ?_⟩ <;> simp [deferred]

/-- C4 at a private host under the Global policy. -/
theorem C4_private_exempt_from_global_witness :
    ∃ res : Result,
      canDirectConnect sampleCodes
          (sampleClient [] 1 5 true [PolicyFlag.PolicyGlobal] (Except.ok "") ([], false))
          "example.com:80" = some res ∧
      res.r = rulePass ∧ res.ext = "Private IP" ∧
      ∀ (transport : Transport) (req : Request),
        Event.roundTrip transport req ∉ res.trace :=
  C4_private_exempt_from_global sampleCodes
    (sampleClient [] 1 5 true [PolicyFlag.PolicyGlobal] (Except.ok "") ([], false))
    "example.com:80" (by decide) (by decide) (by decide)

/-- C5, as stated, fails: a private host without cache entry, looked up under the Global
policy, has a cache entry after the call. -/
theorem C5_private_never_cached_counterexample :
    sampleCodes.Distinct ∧
    (sampleClient [] 1 5 true [PolicyFlag.PolicyGlobal] (Except.ok "")
      ([], false)).DNSCache.Get "example.com" = none ∧
    ((sampleClient [] 1 5 true [PolicyFlag.PolicyGlobal] (Except.ok "")
      ([], false)).ACL.Check "example.com" false).1 = sampleCodes.RulePrivate ∧
    (canDirectConnect sampleCodes
        (sampleClient [] 1 5 true [PolicyFlag.PolicyGlobal] (Except.ok "") ([], false))
        "example.com:80").map (fun res => res.DNSCache.Get "example.com") =
      some (some (some { IP := "", Ans := rulePass, OldAns := rulePass, R := 1 })) := by
  decide

/-- C5, amended: for a host without cache entry whose first-pass code is Private, and for
either value of the Global flag, the deferred closure adds an entry for the host: the
cache after the call is the cache before it plus the entry
`Rule(ipstr, rulePass, rulePass, RulePrivate)`, which a lookup of the host then finds. -/
theorem C5_private_lookup_is_cached (acr : AclCodes) (proxy : ProxyClient)
    (host : String) (hd : acr.Distinct)
    (hmiss : proxy.DNSCache.Get (proxy.splitHostPort host) = none)
    (hrule : (proxy.ACL.Check (proxy.splitHostPort host) (!proxy.ACL.RemoteDNS)).1
      = acr.RulePrivate) :
    ∃ res : Result,
      canDirectConnect acr proxy host = some res ∧
      res.DNSCache = proxy.DNSCache.Add (proxy.splitHostPort host)
        (some { IP := (proxy.ACL.Check (proxy.splitHostPort host)
                        (!proxy.ACL.RemoteDNS)).2.1,
                Ans := rulePass, OldAns := rulePass, R := acr.RulePrivate }) ∧
      res.DNSCache.Get (proxy.splitHostPort host) =
        some (some { IP := (proxy.ACL.Check (proxy.splitHostPort host)
                        (!proxy.ACL.RemoteDNS)).2.1,
                     Ans := rulePass, OldAns := rulePass, R := acr.RulePrivate }) := by
  rw [canDirectConnect_of_miss acr proxy host hmiss,
    onMiss_of_private acr proxy _ _ hd hrule, Option.map_some']
  have hret : (deferred proxy (proxy.splitHostPort host)
      { r := rulePass, ext := "Private IP", priv := true,
        ipstr := (proxy.ACL.Check (proxy.splitHostPort host)
          (!proxy.ACL.RemoteDNS)).2.1,
        rule := acr.RulePrivate,
        trace := [Event.cacheGet (proxy.splitHostPort host)] ++
          [Event.aclCheck (proxy.splitHostPort host) (!proxy.ACL.RemoteDNS)] }).DNSCache =
      proxy.DNSCache.Add (proxy.splitHostPort host)
        (some { IP := (proxy.ACL.Check (proxy.splitHostPort host)
                        (!proxy.ACL.RemoteDNS)).2.1,
                Ans := rulePass, OldAns := rulePass, R := acr.RulePrivate }) := by
    simp [deferred]
  exact ⟨_, rfl, hret, by rw [hret, Cache.Get_Add]⟩

/-- C5 amended, at a private host with the Global policy set. -/
theorem C5_private_lookup_is_cached_witness :
    ∃ res : Result,
      canDirectConnect sampleCodes
          (sampleClient [] 1 5 true [PolicyFlag.PolicyGlobal] (Except.ok "") ([], false))
          "example.com:80" = some res ∧
      res.DNSCache = { entries := [("example.com", some ⟨"", 1, 1, 1⟩)] } ∧
      res.DNSCache.Get "example.com" = some (some ⟨"", 1, 1, 1⟩) :=
  C5_private_lookup_is_cached sampleCodes
    (sampleClient [] 1 5 true [PolicyFlag.PolicyGlobal] (Except.ok "") ([], false))
    "example.com:80" (by decide) (by decide) (by decide)

/-! ## Failed remote resolution -/

/-- C6, as stated, fails: a host without cache entry whose remote resolution times out
has a cache entry after the call. -/
theorem C6_failed_resolution_not_cached_counterexample :
    (sampleClient [] 9 5 true [] (Except.error ⟨true, true, "dial timeout"⟩)
      ([], false)).DNSCache.Get "example.com" = none ∧
    (sampleClient [] 9 5 true [] (Except.error ⟨true, true, "dial timeout"⟩)
      ([], false)).RoundTrip Transport.tpq
        { method := "GET", url := "http://dummy.com/enc-example.com", header := [] } =
      Except.error ⟨true, true, "dial timeout"⟩ ∧
    (canDirectConnect sampleCodes
        (sampleClient [] 9 5 true [] (Except.error ⟨true, true, "dial timeout"⟩)
          ([], false))
        "example.com:80").map
        (fun res => (res.ext, res.trace, res.DNSCache.Get "example.com")) =
      some ("Timeout",
            [Event.cacheGet "example.com", Event.aclCheck "example.com" false,
             Event.roundTrip Transport.tpq
               { method := "GET", url := "http://dummy.com/enc-example.com", header := [] },
             Event.cacheAdd "example.com"
               { IP := "", Ans := ruleProxy, OldAns := ruleProxy, R := 9 }],
            some (some { IP := "", Ans := ruleProxy, OldAns := ruleProxy, R := 9 })) :=
  ⟨by decide, rfl, by decide⟩

/-- C6, amended: for a host without cache entry for which `canDirectConnect` reaches the
remote resolution (Global not set; first-pass code unqualified Pass with remote DNS
enabled, or outside the seven codes) and that resolution fails (the round trip of the
request built returns an error, timeout or not, or a bad response), the cache after the call
holds an entry for the host that records the provisional outcome, the first-pass IP
string and the first-pass code; the next call for the host, on that cache, returns the
provisional outcome from the cache and calls neither the matcher nor a transport. -/
theorem C6_failed_resolution_is_cached (acr : AclCodes) (proxy : ProxyClient)
    (host : String) (transport : Transport) (req : Request) (hd : acr.Distinct)
    (hmiss : proxy.DNSCache.Get (proxy.splitHostPort host) = none)
    (hglobal : proxy.Policy.IsSet PolicyFlag.PolicyGlobal = false)
    (hdoubt : ((proxy.ACL.Check (proxy.splitHostPort host) (!proxy.ACL.RemoteDNS)).1
          = acr.RulePass ∧ proxy.ACL.RemoteDNS = true) ∨
      (proxy.ACL.Check (proxy.splitHostPort host) (!proxy.ACL.RemoteDNS)).1 ∉
        [acr.RuleIPv6, acr.RuleMatchedPass, acr.RuleProxy, acr.RuleMatchedProxy,
         acr.RuleBlock, acr.RulePrivate, acr.RulePass])
    (hreq : dnsRequest proxy (proxy.splitHostPort host) = some (transport, req))
    (hfail : (∃ e : NetErr, proxy.RoundTrip transport req = Except.error e) ∨
      (∃ dnsResp : String,
        proxy.RoundTrip transport req = Except.ok dnsResp ∧
        resolvedIP proxy dnsResp = none)) :
    ∃ res : Result,
      canDirectConnect acr proxy host = some res ∧
      res.r = (if (proxy.ACL.Check (proxy.splitHostPort host)
                    (!proxy.ACL.RemoteDNS)).1 = acr.RulePass
               then rulePass else ruleProxy) ∧
      res.DNSCache.Get (proxy.splitHostPort host) =
        some (some { IP := (proxy.ACL.Check (proxy.splitHostPort host)
                              (!proxy.ACL.RemoteDNS)).2.1,
                     Ans := res.r, OldAns := res.r,
                     R := (proxy.ACL.Check (proxy.splitHostPort host)
                            (!proxy.ACL.RemoteDNS)).1 }) ∧
      canDirectConnect acr { proxy with DNSCache := res.DNSCache } host =
        some { r := res.r,
               ext := if res.r = ruleProxy then "Proxy (cached)" else "Pass (cached)",
               DNSCache := res.DNSCache,
               trace := [Event.cacheGet (proxy.splitHostPort host)] } := by
  rw [canDirectConnect_of_miss acr proxy host hmiss,
    onMiss_of_doubt acr proxy _ _ hd hglobal hdoubt]
  obtain ⟨ext, hq⟩ := queryUpstream_of_failure acr proxy (proxy.splitHostPort host)
    (if (proxy.ACL.Check (proxy.splitHostPort host) (!proxy.ACL.RemoteDNS)).1
        = acr.RulePass then rulePass else ruleProxy)
    (proxy.ACL.Check (proxy.splitHostPort host) (!proxy.ACL.RemoteDNS)).2.1
    (proxy.ACL.Check (proxy.splitHostPort host) (!proxy.ACL.RemoteDNS)).1
    ([Event.cacheGet (proxy.splitHostPort host)] ++
      [Event.aclCheck (proxy.splitHostPort host) (!proxy.ACL.RemoteDNS)])
    transport req hreq hfail
  rw [hq, Option.map_some']
  refine ⟨_, rfl, ?_, ?_, ?_⟩
  · simp [deferred, hglobal]
  · simp [deferred, hglobal, Cache.Get_Add]
  · by_cases hp : (proxy.ACL.Check (proxy.splitHostPort host) (!proxy.ACL.RemoteDNS)).1
        = acr.RulePass <;>
      simp [deferred, hglobal, canDirectConnect, Cache.Get_Add, hp, ruleProxy, rulePass]

/-- C6 amended, at a timeout after an unrecognised first-pass code. -/
theorem C6_failed_resolution_is_cached_witness :
    ∃ res : Result,
      canDirectConnect sampleCodes
        (sampleClient [] 9 5 true [] (Except.error ⟨true, true, "dial timeout"⟩)
          ([], false)) "example.com:80" = some res ∧
      res.r = ruleProxy ∧
      res.DNSCache.Get "example.com" =
        some (some { IP := "", Ans := res.r, OldAns := res.r, R := 9 }) ∧
      canDirectConnect sampleCodes
        (sampleClient res.DNSCache.entries 9 5 true []
          (Except.error ⟨true, true, "dial timeout"⟩) ([], false)) "example.com:80" =
        some { r := res.r,
               ext := if res.r = ruleProxy then "Proxy (cached)" else "Pass (cached)",
               DNSCache := res.DNSCache,
               trace := [Event.cacheGet "example.com"] } :=
  C6_failed_resolution_is_cached sampleCodes
    (sampleClient [] 9 5 true [] (Except.error ⟨true, true, "dial timeout"⟩) ([], false))
    "example.com:80" Transport.tpq
    { method := "GET", url := "http://dummy.com/enc-example.com", header := [] }
    (by decide) (by decide) (by decide) (Or.inr (by decide)) (by decide)
    (Or.inl ⟨⟨true, true, "dial timeout"⟩, rfl⟩)

/-- C7: for a host without cache entry that reaches the remote resolution (Global not
set), when the round trip of the request built returns an error the call returns the
provisional outcome of
the first-pass switch (`rulePass` after an unqualified Pass, `ruleProxy` after a code
outside the seven) with the reason "Timeout" when the error is a timeout and
"Network error: " followed by the error text otherwise; that outcome is never
`ruleBlock`. -/
theorem C7_transport_failure_provisional (acr : AclCodes) (proxy : ProxyClient)
    (host : String) (transport : Transport) (req : Request) (e : NetErr)
    (hd : acr.Distinct)
    (hmiss : proxy.DNSCache.Get (proxy.splitHostPort host) = none)
    (hglobal : proxy.Policy.IsSet PolicyFlag.PolicyGlobal = false)
    (hdoubt : ((proxy.ACL.Check (proxy.splitHostPort host) (!proxy.ACL.RemoteDNS)).1
          = acr.RulePass ∧ proxy.ACL.RemoteDNS = true) ∨
      (proxy.ACL.Check (proxy.splitHostPort host) (!proxy.ACL.RemoteDNS)).1 ∉
        [acr.RuleIPv6, acr.RuleMatchedPass, acr.RuleProxy, acr.RuleMatchedProxy,
         acr.RuleBlock, acr.RulePrivate, acr.RulePass])
    (hreq : dnsRequest proxy (proxy.splitHostPort host) = some (transport, req))
    (hrt : proxy.RoundTrip transport req = Except.error e) :
    ∃ res : Result,
      canDirectConnect acr proxy host = some res ∧
      res.r = (if (proxy.ACL.Check (proxy.splitHostPort host)
                    (!proxy.ACL.RemoteDNS)).1 = acr.RulePass
               then rulePass else ruleProxy) ∧
      res.ext = (if e.isNetError = true ∧ e.Timeout = true then "Timeout"
                 else "Network error: " ++ e.Error) ∧
      res.r ≠ ruleBlock := by
  rw [canDirectConnect_of_miss acr proxy host hmiss,
    onMiss_of_doubt acr proxy _ _ hd hglobal hdoubt,
    queryUpstream_of_error acr proxy _ _ _ _ _ transport req e hreq hrt, Option.map_some']
  refine ⟨_, rfl, ?_, ?_, ?_⟩
  · simp [deferred, hglobal]
  · simp [deferred, hglobal]
  · simp only [deferred, hglobal]
    split_ifs <;> simp [rulePass, ruleProxy, ruleBlock]

/-- C7 at a refused connection after an unqualified Pass. -/
theorem C7_transport_failure_provisional_witness :
    ∃ res : Result,
      canDirectConnect sampleCodes
        (sampleClient [] 3 5 true [] (Except.error ⟨true, false, "connection refused"⟩)
          ([], false)) "example.com:80" = some res ∧
      res.r = rulePass ∧
      res.ext = "Network error: connection refused" ∧
      res.r ≠ ruleBlock :=
  C7_transport_failure_provisional sampleCodes
    (sampleClient [] 3 5 true [] (Except.error ⟨true, false, "connection refused"⟩)
      ([], false))
    "example.com:80" Transport.tpq
    { method := "GET", url := "http://dummy.com/enc-example.com", header := [] }
    ⟨true, false, "connection refused"⟩
    (by decide) (by decide) (by decide) (Or.inl (by decide)) (by decide) rfl

/-- C8, as stated, fails: after an unqualified Pass with remote DNS enabled and Global not
set, a timed-out remote resolution makes `canDirectConnect` return `rulePass`, which is
not `ruleProxy`. -/
theorem C8_provisional_pass_is_proxy_counterexample :
    (sampleClient [] 3 5 true [] (Except.error ⟨true, true, "dial timeout"⟩)
      ([], false)).DNSCache.Get "example.com" = none ∧
    (sampleClient [] 3 5 true [] (Except.error ⟨true, true, "dial timeout"⟩)
      ([], false)).Policy.IsSet PolicyFlag.PolicyGlobal = false ∧
    (sampleClient [] 3 5 true [] (Except.error ⟨true, true, "dial timeout"⟩)
      ([], false)).ACL.RemoteDNS = true ∧
    ((sampleClient [] 3 5 true [] (Except.error ⟨true, true, "dial timeout"⟩)
      ([], false)).ACL.Check "example.com" false).1 = sampleCodes.RulePass ∧
    (canDirectConnect sampleCodes
        (sampleClient [] 3 5 true [] (Except.error ⟨true, true, "dial timeout"⟩)
          ([], false))
        "example.com:80").map (fun res => (res.r, res.ext)) =
      some (rulePass, "Timeout") ∧
    rulePass ≠ ruleProxy := by
  decide

/-- C8, amended: for a host without cache entry, Global not set, remote DNS enabled and
first-pass code unqualified Pass, the provisional outcome carried into the remote
resolution is `rulePass` (the miss body is the remote resolution entered with
`rulePass`); so when the remote resolution fails (timeout, network error or bad
response) `canDirectConnect` returns the outcome `rulePass`. -/
theorem C8_provisional_pass_is_pass (acr : AclCodes) (proxy : ProxyClient)
    (host : String) (transport : Transport) (req : Request) (hd : acr.Distinct)
    (hmiss : proxy.DNSCache.Get (proxy.splitHostPort host) = none)
    (hglobal : proxy.Policy.IsSet PolicyFlag.PolicyGlobal = false)
    (hdns : proxy.ACL.RemoteDNS = true)
    (hrule : (proxy.ACL.Check (proxy.splitHostPort host) (!proxy.ACL.RemoteDNS)).1
      = acr.RulePass)
    (hreq : dnsRequest proxy (proxy.splitHostPort host) = some (transport, req))
    (hfail : (∃ e : NetErr, proxy.RoundTrip transport req = Except.error e) ∨
      (∃ dnsResp : String,
        proxy.RoundTrip transport req = Except.ok dnsResp ∧
        resolvedIP proxy dnsResp = none)) :
    onMiss acr proxy (proxy.splitHostPort host)
        [Event.cacheGet (proxy.splitHostPort host)] =
      queryUpstream acr proxy (proxy.splitHostPort host) rulePass
        (proxy.ACL.Check (proxy.splitHostPort host) (!proxy.ACL.RemoteDNS)).2.1
        (proxy.ACL.Check (proxy.splitHostPort host) (!proxy.ACL.RemoteDNS)).1
        [Event.cacheGet (proxy.splitHostPort host),
         Event.aclCheck (proxy.splitHostPort host) (!proxy.ACL.RemoteDNS)] ∧
    ∃ res : Result,
      canDirectConnect acr proxy host = some res ∧ res.r = rulePass := by
  have hm := onMiss_of_doubt acr proxy (proxy.splitHostPort host)
    [Event.cacheGet (proxy.splitHostPort host)] hd hglobal (Or.inl ⟨hrule, hdns⟩)
  rw [if_pos hrule] at hm
  refine ⟨by simpa using hm, ?_⟩
  rw [canDirectConnect_of_miss acr proxy host hmiss, hm]
  obtain ⟨ext, hq⟩ := queryUpstream_of_failure acr proxy (proxy.splitHostPort host)
    rulePass
    (proxy.ACL.Check (proxy.splitHostPort host) (!proxy.ACL.RemoteDNS)).2.1
    (proxy.ACL.Check (proxy.splitHostPort host) (!proxy.ACL.RemoteDNS)).1
    ([Event.cacheGet (proxy.splitHostPort host)] ++
      [Event.aclCheck (proxy.splitHostPort host) (!proxy.ACL.RemoteDNS)])
    transport req hreq hfail
  rw [hq, Option.map_some']
  exact ⟨_, rfl, by simp [deferred, hglobal]⟩

/-- C8 amended, at a response whose header decodes to no bytes (a bad response). -/
theorem C8_provisional_pass_is_pass_witness :
    ∃ res : Result,
      canDirectConnect sampleCodes
        (sampleClient [] 3 5 true [] (Except.ok "") ([], false)) "example.com:80"
        = some res ∧ res.r = rulePass :=
  (C8_provisional_pass_is_pass sampleCodes
    (sampleClient [] 3 5 true [] (Except.ok "") ([], false)) "example.com:80"
    Transport.tpq
    { method := "GET", url := "http://dummy.com/enc-example.com", header := [] }
    (by decide) (by decide) (by decide) (by decide) (by decide) (by decide)
    (Or.inr ⟨"", rfl, by decide⟩)).2

/-! ## The first-pass and second-pass mappings -/

/-- C9: for a host without cache entry and Global not set, when the first-pass code is
IPv6, MatchedPass, Proxy, MatchedProxy, Block, or unqualified Pass with remote DNS
disabled, `canDirectConnect` returns `(ruleProxy, "Proxy (IPv6)")`, `(rulePass, "Pass")`,
`(ruleProxy, "Proxy")` (both Proxy codes), `(ruleBlock, "Block")` and
`(rulePass, "Pass (trust local DNS)")` respectively; no transport round trip is made, and
replacing the policy by any other policy without Global (so any Forward and Agent
flags) leaves the whole result unchanged. -/
theorem C9_first_pass_mapping (acr : AclCodes) (proxy : ProxyClient) (host : String)
    (rule : Nat) (hd : acr.Distinct)
    (hmiss : proxy.DNSCache.Get (proxy.splitHostPort host) = none)
    (hglobal : proxy.Policy.IsSet PolicyFlag.PolicyGlobal = false)
    (hrule : (proxy.ACL.Check (proxy.splitHostPort host) (!proxy.ACL.RemoteDNS)).1 = rule)
    (hdef : rule = acr.RuleIPv6 ∨ rule = acr.RuleMatchedPass ∨ rule = acr.RuleProxy ∨
      rule = acr.RuleMatchedProxy ∨ rule = acr.RuleBlock ∨
      (rule = acr.RulePass ∧ proxy.ACL.RemoteDNS = false)) :
    ∃ res : Result,
      canDirectConnect acr proxy host = some res ∧
      (rule = acr.RuleIPv6 → res.r = ruleProxy ∧ res.ext = "Proxy (IPv6)") ∧
      (rule = acr.RuleMatchedPass → res.r = rulePass ∧ res.ext = "Pass") ∧
      (rule = acr.RuleProxy ∨ rule = acr.RuleMatchedProxy →
        res.r = ruleProxy ∧ res.ext = "Proxy") ∧
      (rule = acr.RuleBlock → res.r = ruleBlock ∧ res.ext = "Block") ∧
      (rule = acr.RulePass → res.r = rulePass ∧ res.ext = "Pass (trust local DNS)") ∧
      (∀ (transport : Transport) (req : Request),
        Event.roundTrip transport req ∉ res.trace) ∧
      (∀ policy : Options, policy.IsSet PolicyFlag.PolicyGlobal = false →
        canDirectConnect acr { proxy with Policy := policy } host = some res) := by
  obtain ⟨h1, h2, h3, h4, h5, h6⟩ := AclCodes.Distinct.ne acr hd
  obtain ⟨h11, h12, h13, h14, h15, h16⟩ := h1
  obtain ⟨h22, h23, h24, h25, h26⟩ := h2
  obtain ⟨h33, h34, h35, h36⟩ := h3
  obtain ⟨h44, h45, h46⟩ := h4
  obtain ⟨h55, h56⟩ := h5
  have hmiss2 : ∀ policy : Options,
      ({ proxy with Policy := policy } : ProxyClient).DNSCache.Get
        (({ proxy with Policy := policy } : ProxyClient).splitHostPort host) = none :=
    fun _ => hmiss
  have hex : ∃ res : Result, canDirectConnect acr proxy host = some res := by
    obtain ⟨r, ext, hm⟩ := onMiss_of_definitive acr proxy (proxy.splitHostPort host)
      [Event.cacheGet (proxy.splitHostPort host)] hd (by rw [hrule]; tauto)
    rw [canDirectConnect_of_miss acr proxy host hmiss, hm]
    exact ⟨_, rfl⟩
  obtain ⟨res, hres⟩ := hex
  refine ⟨res, hres, ?_⟩
  rw [canDirectConnect_of_miss acr proxy host hmiss] at hres
  rcases hdef with h | h | h | h | h | ⟨h, hdns⟩
  all_goals subst h
  case inr.inr.inr.inr.inr.intro =>
    have hr2 : (proxy.ACL.Check (proxy.splitHostPort host) true).1 = acr.RulePass := by
      simpa [hdns] using hrule
    simp [onMiss, hr2, hdns, hglobal, deferred, h11, h12, h13, h14, h15, h16, h22, h23, h24,
      h25, h26, h33, h34, h35, h36, h44, h45, h46, h55, h56, h6, Ne.symm h11, Ne.symm h12,
      Ne.symm h13, Ne.symm h14, Ne.symm h15, Ne.symm h16, Ne.symm h22, Ne.symm h23,
      Ne.symm h24, Ne.symm h25, Ne.symm h26, Ne.symm h33, Ne.symm h34, Ne.symm h35,
      Ne.symm h36, Ne.symm h44, Ne.symm h45, Ne.symm h46, Ne.symm h55, Ne.symm h56,
      Ne.symm h6] at hres
    subst hres
    refine ⟨?_, ?_, ?_, ?_, ?_, ?_, ?_⟩ <;>
    first
      | (intro policy hpol
         rw [canDirectConnect_of_miss acr _ host (hmiss2 policy)]
         simp_all [onMiss, deferred, Ne.symm, Cache.Add])
      | (intros
         simp_all [onMiss, deferred, Ne.symm])
  all_goals
    simp [onMiss, hrule, hglobal, deferred, h11, h12, h13, h14, h15, h16, h22, h23, h24,
      h25, h26, h33, h34, h35, h36, h44, h45, h46, h55, h56, h6, Ne.symm h11, Ne.symm h12,
      Ne.symm h13, Ne.symm h14, Ne.symm h15, Ne.symm h16, Ne.symm h22, Ne.symm h23,
      Ne.symm h24, Ne.symm h25, Ne.symm h26, Ne.symm h33, Ne.symm h34, Ne.symm h35,
      Ne.symm h36, Ne.symm h44, Ne.symm h45, Ne.symm h46, Ne.symm h55, Ne.symm h56,
      Ne.symm h6] at hres
    subst hres
    refine ⟨?_, ?_, ?_, ?_, ?_, ?_, ?_⟩ <;>
    first
      | (intro policy hpol
         rw [canDirectConnect_of_miss acr _ host (hmiss2 policy)]
         simp_all [onMiss, deferred, Ne.symm, Cache.Add])
      | (intros
         simp_all [onMiss, deferred, Ne.symm])

/-- C9 at an IPv6 code under the Forward and Agent policies, and at an unqualified Pass
with remote DNS disabled. -/
theorem C9_first_pass_mapping_witness :
    (∃ res : Result,
      canDirectConnect sampleCodes
        (sampleClient [] 6 5 true [PolicyFlag.PolicyForward, PolicyFlag.PolicyAgent]
          (Except.ok "") ([], false)) "example.com:80" = some res ∧
      res.r = ruleProxy ∧ res.ext = "Proxy (IPv6)" ∧
      ∀ (transport : Transport) (req : Request),
        Event.roundTrip transport req ∉ res.trace) ∧
    (∃ res : Result,
      canDirectConnect sampleCodes
        (sampleClient [] 3 5 false [] (Except.ok "") ([], false)) "example.com:80"
        = some res ∧
      res.r = rulePass ∧ res.ext = "Pass (trust local DNS)" ∧
      ∀ (transport : Transport) (req : Request),
        Event.roundTrip transport req ∉ res.trace) :=
  ⟨(C9_first_pass_mapping sampleCodes
      (sampleClient [] 6 5 true [PolicyFlag.PolicyForward, PolicyFlag.PolicyAgent]
        (Except.ok "") ([], false)) "example.com:80" 6
      (by decide) (by decide) (by decide) (by decide) (Or.inl (by decide))).imp
      (fun _ h => ⟨h.1, (h.2.1 (by decide)).1, (h.2.1 (by decide)).2, h.2.2.2.2.2.2.1⟩),
   (C9_first_pass_mapping sampleCodes
      (sampleClient [] 3 5 false [] (Except.ok "") ([], false)) "example.com:80" 3
      (by decide) (by decide) (by decide) (by decide)
      (Or.inr (Or.inr (Or.inr (Or.inr (Or.inr (by decide))))))).imp
      (fun _ h => ⟨h.1, (h.2.2.2.2.2.1 (by decide)).1, (h.2.2.2.2.2.1 (by decide)).2,
        h.2.2.2.2.2.2.1⟩)⟩

/-- C10: for a host without cache entry that reaches the remote resolution (Global not
set), whenever the response to the request built decodes to an IP string `s`,
`canDirectConnect` calls the
matcher on `s` with local resolution forced on and returns `(rulePass, "Pass (by remote)")`
for the code Pass or MatchedPass, `(ruleProxy, "Proxy (by remote)")` for Proxy or
MatchedProxy, `(ruleBlock, "Block (by remote)")` for Block,
`(ruleProxy, "Private IP (by remote)")` for Private and `(ruleProxy, "Unknown")` for
every other code (IPv6 among them); the remote resolution returns the same outcome and
reason whatever provisional outcome it is entered with. -/
theorem C10_second_pass_mapping (acr : AclCodes) (proxy : ProxyClient) (host : String)
    (transport : Transport) (req : Request) (dnsResp s : String) (code : Nat)
    (hd : acr.Distinct)
    (hmiss : proxy.DNSCache.Get (proxy.splitHostPort host) = none)
    (hglobal : proxy.Policy.IsSet PolicyFlag.PolicyGlobal = false)
    (hdoubt : ((proxy.ACL.Check (proxy.splitHostPort host) (!proxy.ACL.RemoteDNS)).1
          = acr.RulePass ∧ proxy.ACL.RemoteDNS = true) ∨
      (proxy.ACL.Check (proxy.splitHostPort host) (!proxy.ACL.RemoteDNS)).1 ∉
        [acr.RuleIPv6, acr.RuleMatchedPass, acr.RuleProxy, acr.RuleMatchedProxy,
         acr.RuleBlock, acr.RulePrivate, acr.RulePass])
    (hreq : dnsRequest proxy (proxy.splitHostPort host) = some (transport, req))
    (hrt : proxy.RoundTrip transport req = Except.ok dnsResp)
    (hres : resolvedIP proxy dnsResp = some s)
    (hcode : (proxy.ACL.Check s true).1 = code) :
    ∃ res : Result,
      canDirectConnect acr proxy host = some res ∧
      Event.aclCheck s true ∈ res.trace ∧
      (code = acr.RulePass ∨ code = acr.RuleMatchedPass →
        res.r = rulePass ∧ res.ext = "Pass (by remote)") ∧
      (code = acr.RuleProxy ∨ code = acr.RuleMatchedProxy →
        res.r = ruleProxy ∧ res.ext = "Proxy (by remote)") ∧
      (code = acr.RuleBlock → res.r = ruleBlock ∧ res.ext = "Block (by remote)") ∧
      (code = acr.RulePrivate → res.r = ruleProxy ∧ res.ext = "Private IP (by remote)") ∧
      (code ∉ [acr.RulePass, acr.RuleMatchedPass, acr.RuleProxy, acr.RuleMatchedProxy,
               acr.RuleBlock, acr.RulePrivate] →
        res.r = ruleProxy ∧ res.ext = "Unknown") ∧
      (code = acr.RuleIPv6 → res.r = ruleProxy ∧ res.ext = "Unknown") ∧
      (∀ (r : Nat) (ipstr : String) (rule : Nat) (trace : List Event),
        (queryUpstream acr proxy (proxy.splitHostPort host) r ipstr rule trace).map
            (fun ret => (ret.r, ret.ext)) = some (res.r, res.ext)) := by
  obtain ⟨h1, h2, h3, h4, h5, h6⟩ := AclCodes.Distinct.ne acr hd
  obtain ⟨h11, h12, h13, h14, h15, h16⟩ := h1
  obtain ⟨h22, h23, h24, h25, h26⟩ := h2
  obtain ⟨h33, h34, h35, h36⟩ := h3
  obtain ⟨h44, h45, h46⟩ := h4
  obtain ⟨h55, h56⟩ := h5
  have hq : ∀ (r : Nat) (ipstr : String) (rule : Nat) (trace : List Event),
      queryUpstream acr proxy (proxy.splitHostPort host) r ipstr rule trace =
        some (aclCheck acr proxy s (trace ++ [Event.roundTrip transport req])) :=
    fun r ipstr rule trace =>
      queryUpstream_of_resolved acr proxy _ r ipstr rule trace transport req dnsResp s
        hreq hrt hres
  rw [canDirectConnect_of_miss acr proxy host hmiss,
    onMiss_of_doubt acr proxy _ _ hd hglobal hdoubt]
  simp only [hq, Option.map_some']
  refine ⟨_, rfl, ?_, ?_, ?_, ?_, ?_, ?_, ?_, ?_⟩
  · simp only [deferred, hglobal, aclCheck]
    split_ifs <;> simp
  · rintro (h | h) <;> simp [deferred, hglobal, aclCheck, hcode, h]
  · rintro (h | h) <;> subst h <;> simp_all [deferred, aclCheck, Ne.symm]
  · intro h
    subst h
    simp_all [deferred, aclCheck, Ne.symm]
  · intro h
    subst h
    simp_all [deferred, aclCheck, Ne.symm]
  · intro h
    simp only [List.mem_cons, List.mem_singleton, not_or, List.not_mem_nil,
      not_false_eq_true, and_true] at h
    simp [deferred, hglobal, aclCheck, hcode, h]
  · intro h
    subst h
    simp_all [deferred, aclCheck, Ne.symm]
  · intro r ipstr rule trace
    simp only [deferred, hglobal, aclCheck]
    split_ifs <;> simp_all

/-- C10 at a literal dotted-quad response that the matcher classifies Private, and at a
binary 4-byte response that the matcher classifies IPv6. -/
theorem C10_second_pass_mapping_witness :
    (∃ res : Result,
      canDirectConnect sampleCodes
        (sampleClient [] 9 1 true [] (Except.ok "MTAuMC4wLjE=")
          ([49, 48, 46, 48, 46, 48, 46, 49], false)) "example.com:80" = some res ∧
      Event.aclCheck "10.0.0.1" true ∈ res.trace ∧
      res.r = ruleProxy ∧ res.ext = "Private IP (by remote)") ∧
    (∃ res : Result,
      canDirectConnect sampleCodes
        (sampleClient [] 3 6 true [] (Except.ok "CgAAAQ==") ([10, 0, 0, 1], false))
        "example.com:80" = some res ∧
      Event.aclCheck "10.0.0.1" true ∈ res.trace ∧
      res.r = ruleProxy ∧ res.ext = "Unknown") :=
  ⟨(C10_second_pass_mapping sampleCodes
      (sampleClient [] 9 1 true [] (Except.ok "MTAuMC4wLjE=")
        ([49, 48, 46, 48, 46, 48, 46, 49], false)) "example.com:80"
      Transport.tpq
      { method := "GET", url := "http://dummy.com/enc-example.com", header := [] }
      "MTAuMC4wLjE=" "10.0.0.1" 1
      (by decide) (by decide) (by decide) (Or.inr (by decide)) (by decide) rfl
      (by decide) (by decide)).imp
      (fun _ h => ⟨h.1, h.2.1, (h.2.2.2.2.2.1 (by decide)).1,
        (h.2.2.2.2.2.1 (by decide)).2⟩),
   (C10_second_pass_mapping sampleCodes
      (sampleClient [] 3 6 true [] (Except.ok "CgAAAQ==") ([10, 0, 0, 1], false))
      "example.com:80" Transport.tpq
      { method := "GET", url := "http://dummy.com/enc-example.com", header := [] }
      "CgAAAQ==" "10.0.0.1" 6
      (by decide) (by decide) (by decide) (Or.inl (by decide)) (by decide) rfl
      (by decide) (by decide)).imp
      (fun _ h => ⟨h.1, h.2.1, (h.2.2.2.2.2.2.2.1 (by decide)).1,
        (h.2.2.2.2.2.2.2.1 (by decide)).2⟩)⟩

/-! ## The resolution response -/

/-- Decoding the character of a 6-bit value gives the value back. -/
theorem Base64.decodeMap_encodeStd (v : Nat) (h : v < 64) :
    Base64.decodeMap (Base64.encodeStd v) = v := by
  unfold Base64.decodeMap Base64.encodeStd
  split_ifs <;> omega

/-- The characters of the alphabet are ASCII. -/
theorem Base64.encodeStd_lt (v : Nat) : Base64.encodeStd v < 128 := by
  unfold Base64.encodeStd
  split_ifs <;> omega

/-- The character of an ASCII code has that code. -/
theorem toNat_ofNat_of_lt (n : Nat) (h : n < 128) : (Char.ofNat n).toNat = n := by
  have hv : n.isValidChar := Or.inl (by omega)
  simp only [Char.ofNat, hv, Char.toNat, Char.ofNatAux, dite_true]
  rfl

/-- The bytes of the string made of given ASCII codes are those codes. -/
theorem Base64.stringBytes_mk (l : List Nat) (h : ∀ n ∈ l, n < 128) :
    Base64.stringBytes (String.mk (l.map Char.ofNat)) = l := by
  induction l with
  | nil => rfl
  | cons n rest ih =>
    have hn := toNat_ofNat_of_lt n (h n (List.mem_cons_self n rest))
    have hr := ih (fun m hm => h m (List.mem_cons_of_mem n hm))
    simp only [Base64.stringBytes, List.map_cons, List.map_map] at hr ⊢
    rw [hn, hr]

/-- The encoder writes ASCII characters only. -/
theorem Base64.encode_lt (src : List Nat) : ∀ n ∈ Base64.encode src, n < 128 := by
  induction src using Base64.encode.induct with
  | case1 => simp [Base64.encode]
  | case2 b0 =>
    simp only [Base64.encode, List.mem_cons, List.mem_singleton, List.not_mem_nil, or_false]
    rintro n (h | h | h | h) <;> subst h <;>
      first | exact Base64.encodeStd_lt _ | decide
  | case3 b0 b1 =>
    simp only [Base64.encode, List.mem_cons, List.mem_singleton, List.not_mem_nil, or_false]
    rintro n (h | h | h | h) <;> subst h <;>
      first | exact Base64.encodeStd_lt _ | decide
  | case4 b0 b1 b2 rest ih =>
    simp only [Base64.encode, List.mem_append, List.mem_cons, List.mem_singleton,
      List.not_mem_nil, or_false]
    rintro n ((h | h | h | h) | h)
    · subst h; exact Base64.encodeStd_lt _
    · subst h; exact Base64.encodeStd_lt _
    · subst h; exact Base64.encodeStd_lt _
    · subst h; exact Base64.encodeStd_lt _
    · exact ih n h

/-- One decoding step on a character of the alphabet. -/
theorem Base64.decodeFrom_encodeStd (v : Nat) (h : v < 64) (rest dbuf dst : List Nat) :
    Base64.decodeFrom (Base64.encodeStd v :: rest) dbuf dst =
      if dbuf.length = 3 then
        Base64.decodeFrom rest [] (dst ++ Base64.quantumBytes (dbuf ++ [v]))
      else Base64.decodeFrom rest (dbuf ++ [v]) dst := by
  have hne : Base64.decodeMap (Base64.encodeStd v) ≠ 255 := by
    rw [Base64.decodeMap_encodeStd v h]; omega
  rw [Base64.decodeFrom, if_pos hne, Base64.decodeMap_encodeStd v h]

/-- A full quantum: four characters of the alphabet are decoded to three bytes. -/
theorem Base64.decodeFrom_quantum (s0 s1 s2 s3 : Nat) (h0 : s0 < 64) (h1 : s1 < 64)
    (h2 : s2 < 64) (h3 : s3 < 64) (rest dst : List Nat) :
    Base64.decodeFrom
        (Base64.encodeStd s0 :: Base64.encodeStd s1 :: Base64.encodeStd s2 ::
          Base64.encodeStd s3 :: rest) [] dst =
      Base64.decodeFrom rest [] (dst ++ Base64.quantumBytes [s0, s1, s2, s3]) := by
  rw [Base64.decodeFrom_encodeStd s0 h0, if_neg (by simp),
    Base64.decodeFrom_encodeStd s1 h1, if_neg (by simp),
    Base64.decodeFrom_encodeStd s2 h2, if_neg (by simp),
    Base64.decodeFrom_encodeStd s3 h3, if_pos (by simp)]
  rfl

/-- A last quantum of two characters and two padding characters is decoded to one byte
and ends the input without error. -/
theorem Base64.decodeFrom_padded2 (s0 s1 : Nat) (h0 : s0 < 64) (h1 : s1 < 64)
    (dst : List Nat) :
    Base64.decodeFrom
        [Base64.encodeStd s0, Base64.encodeStd s1, Base64.padChar, Base64.padChar] [] dst =
      (dst ++ Base64.quantumBytes [s0, s1], false) := by
  rw [Base64.decodeFrom_encodeStd s0 h0, if_neg (by simp),
    Base64.decodeFrom_encodeStd s1 h1, if_neg (by simp)]
  simp [Base64.decodeFrom, Base64.decodeMap, Base64.padChar, Base64.skipNewlines]

/-- Round trip of the codec on a 4-byte payload: the standard decoder, applied to the
standard encoding of 4 bytes, gives the 4 bytes back and reports no error. -/
theorem Base64.DecodeString_EncodeToString_four (a b c d : Nat)
    (ha : a < 256) (hb : b < 256) (hc : c < 256) (hd : d < 256) :
    Base64.DecodeString (Base64.EncodeToString [a, b, c, d]) = ([a, b, c, d], false) := by
  unfold Base64.DecodeString Base64.EncodeToString
  rw [Base64.stringBytes_mk _ (Base64.encode_lt _)]
  have h64 : ∀ n : Nat, n % 64 < 64 := fun n => Nat.mod_lt n (by decide)
  simp only [Base64.encode, List.cons_append, List.nil_append]
  rw [Base64.decodeFrom_quantum _ _ _ _ (h64 _) (h64 _) (h64 _) (h64 _),
    Base64.decodeFrom_padded2 _ _ (h64 _) (h64 _)]
  simp only [Base64.quantumBytes, List.getD_cons_zero, List.getD_cons_succ,
    List.getD_nil, List.length_cons, List.length_nil, List.nil_append]
  simp only [List.take, List.cons_append, List.nil_append, Prod.mk.injEq, and_true,
    List.cons.injEq]
  refine ⟨?_, ?_, ?_, ?_⟩ <;> omega

/-- Splitting on a separator gives one piece more than there are separators. -/
theorem bytesSplit_length (s : List Nat) (sep : Nat) :
    (bytesSplit s sep).length = s.count sep + 1 := by
  induction s with
  | nil => simp [bytesSplit]
  | cons b rest ih =>
    by_cases hb : b = sep
    · subst hb
      simp [bytesSplit, ih]
    · have hc : (b :: rest).count sep = rest.count sep := by
        simp [List.count_cons, hb]
      rw [hc, ← ih]
      simp only [bytesSplit, if_neg hb]
      cases hsplit : bytesSplit rest sep with
      | nil => simp [hsplit] at ih
      | cons p ps => simp

/-- The second matcher pass records one matcher call on the resolved IP string, with
local resolution forced on, and hands that string to the deferred closure. -/
theorem aclCheck_fields (acr : AclCodes) (proxy : ProxyClient) (s : String)
    (trace : List Event) :
    (aclCheck acr proxy s trace).trace = trace ++ [Event.aclCheck s true] ∧
    (aclCheck acr proxy s trace).ipstr = s ∧
    (aclCheck acr proxy s trace).rule = (proxy.ACL.Check s true).1 := by
  simp only [aclCheck]
  split_ifs <;> simp

/-- Without the Global policy the deferred closure keeps the returned pair and records
one cache insertion after the calls made so far. -/
theorem deferred_of_not_global (proxy : ProxyClient) (key : String) (ret : Ret)
    (hglobal : proxy.Policy.IsSet PolicyFlag.PolicyGlobal = false) :
    deferred proxy key ret =
      { r := ret.r, ext := ret.ext,
        DNSCache := proxy.DNSCache.Add key (some ⟨ret.ipstr, ret.r, ret.r, ret.rule⟩),
        trace := ret.trace ++ [Event.cacheAdd key ⟨ret.ipstr, ret.r, ret.r, ret.rule⟩] } := by
  simp [deferred, hglobal]

/-- C11: for bytes `a b c d`, none of them the byte of '.', when the client decodes with
the standard base64 decoder and the transport succeeds with a resolution header equal to
the standard base64 encoding of `[a, b, c, d]`, the resolved IP string is the decimal
dotted form `a.b.c.d`, and after the round trip `canDirectConnect` calls the matcher
once more, on exactly that string with local resolution forced on. -/
theorem C11_binary_response_round_trip (acr : AclCodes) (proxy : ProxyClient)
    (host : String) (transport : Transport) (req : Request) (a b c d : Nat)
    (hd : acr.Distinct)
    (hmiss : proxy.DNSCache.Get (proxy.splitHostPort host) = none)
    (hglobal : proxy.Policy.IsSet PolicyFlag.PolicyGlobal = false)
    (hdoubt : ((proxy.ACL.Check (proxy.splitHostPort host) (!proxy.ACL.RemoteDNS)).1
          = acr.RulePass ∧ proxy.ACL.RemoteDNS = true) ∨
      (proxy.ACL.Check (proxy.splitHostPort host) (!proxy.ACL.RemoteDNS)).1 ∉
        [acr.RuleIPv6, acr.RuleMatchedPass, acr.RuleProxy, acr.RuleMatchedProxy,
         acr.RuleBlock, acr.RulePrivate, acr.RulePass])
    (ha : a < 256) (hb : b < 256) (hc : c < 256) (hd4 : d < 256)
    (hna : a ≠ dotByte) (hnb : b ≠ dotByte) (hnc : c ≠ dotByte) (hnd : d ≠ dotByte)
    (hdec : proxy.DecodeString = Base64.DecodeString)
    (hreq : dnsRequest proxy (proxy.splitHostPort host) = some (transport, req))
    (hrt : proxy.RoundTrip transport req = Except.ok (Base64.EncodeToString [a, b, c, d])) :
    resolvedIP proxy (Base64.EncodeToString [a, b, c, d]) =
      some (toString a ++ "." ++ toString b ++ "." ++ toString c ++ "." ++ toString d) ∧
    ∃ (res : Result) (entry : Rule),
      canDirectConnect acr proxy host = some res ∧
      res.trace =
        [Event.cacheGet (proxy.splitHostPort host),
         Event.aclCheck (proxy.splitHostPort host) (!proxy.ACL.RemoteDNS),
         Event.roundTrip transport req,
         Event.aclCheck
           (toString a ++ "." ++ toString b ++ "." ++ toString c ++ "." ++ toString d) true,
         Event.cacheAdd (proxy.splitHostPort host) entry] := by
  have hres : resolvedIP proxy (Base64.EncodeToString [a, b, c, d]) =
      some (toString a ++ "." ++ toString b ++ "." ++ toString c ++ "." ++ toString d) := by
    have hlen : (bytesSplit [a, b, c, d] dotByte).length ≠ 4 := by
      rw [bytesSplit_length]
      simp [List.count_cons, hna, hnb, hnc, hnd]
    simp only [resolvedIP, hdec, Base64.DecodeString_EncodeToString_four a b c d ha hb hc hd4,
      if_neg hlen]
    simp [ipv4String]
  refine ⟨hres, ?_⟩
  rw [canDirectConnect_of_miss acr proxy host hmiss,
    onMiss_of_doubt acr proxy _ _ hd hglobal hdoubt,
    queryUpstream_of_resolved acr proxy _ _ _ _ _ transport req _ _ hreq hrt hres,
    Option.map_some', deferred_of_not_global proxy _ _ hglobal]
  have hf := (aclCheck_fields acr proxy
    (toString a ++ "." ++ toString b ++ "." ++ toString c ++ "." ++ toString d)
    ([Event.cacheGet (proxy.splitHostPort host)] ++
      [Event.aclCheck (proxy.splitHostPort host) (!proxy.ACL.RemoteDNS)] ++
      [Event.roundTrip transport req])).1
  generalize aclCheck acr proxy _ _ = ret at hf ⊢
  exact ⟨_, ⟨ret.ipstr, ret.r, ret.r, ret.rule⟩, rfl, by simp [hf]⟩

/-- C11 at the bytes 10, 0, 0, 1, whose standard encoding is `CgAAAQ==`. -/
theorem C11_binary_response_round_trip_witness :
    resolvedIP (stdClient [] 9 5 true [] (Except.ok "CgAAAQ==")) "CgAAAQ==" =
      some "10.0.0.1" ∧
    ∃ (res : Result) (entry : Rule),
      canDirectConnect sampleCodes (stdClient [] 9 5 true [] (Except.ok "CgAAAQ=="))
        "example.com:80" = some res ∧
      res.trace =
        [Event.cacheGet "example.com",
         Event.aclCheck "example.com" false,
         Event.roundTrip Transport.tpq { method := "GET", url := "http://dummy.com/enc-example.com", header := [] },
         Event.aclCheck "10.0.0.1" true,
         Event.cacheAdd "example.com" entry] :=
  C11_binary_response_round_trip sampleCodes
    (stdClient [] 9 5 true [] (Except.ok "CgAAAQ==")) "example.com:80" Transport.tpq
    { method := "GET", url := "http://dummy.com/enc-example.com", header := [] } 10 0 0 1
    (by decide) (by decide) (by decide) (Or.inr (by decide))
    (by decide) (by decide) (by decide) (by decide)
    (by decide) (by decide) (by decide) (by decide) rfl (by decide) rfl

/-- C12: for every successful response whose decoded header payload splits on '.' into
exactly 4 components (so it holds exactly three '.' bytes), whether or not the decoder
reported an error, the resolved IP is the payload itself read as a string (its bytes are
not reinterpreted as a binary address), and after the round trip `canDirectConnect`
calls the matcher once more, on exactly that string with local resolution forced on. -/
theorem C12_literal_dotted_quad (acr : AclCodes) (proxy : ProxyClient) (host : String)
    (transport : Transport) (req : Request) (dnsResp : String) (hd : acr.Distinct)
    (hmiss : proxy.DNSCache.Get (proxy.splitHostPort host) = none)
    (hglobal : proxy.Policy.IsSet PolicyFlag.PolicyGlobal = false)
    (hdoubt : ((proxy.ACL.Check (proxy.splitHostPort host) (!proxy.ACL.RemoteDNS)).1
          = acr.RulePass ∧ proxy.ACL.RemoteDNS = true) ∨
      (proxy.ACL.Check (proxy.splitHostPort host) (!proxy.ACL.RemoteDNS)).1 ∉
        [acr.RuleIPv6, acr.RuleMatchedPass, acr.RuleProxy, acr.RuleMatchedProxy,
         acr.RuleBlock, acr.RulePrivate, acr.RulePass])
    (hreq : dnsRequest proxy (proxy.splitHostPort host) = some (transport, req))
    (hrt : proxy.RoundTrip transport req = Except.ok dnsResp)
    (hsplit : (bytesSplit (proxy.DecodeString dnsResp).1 dotByte).length = 4) :
    (proxy.DecodeString dnsResp).1.count dotByte = 3 ∧
    resolvedIP proxy dnsResp = some (bytesToString (proxy.DecodeString dnsResp).1) ∧
    ∃ (res : Result) (entry : Rule),
      canDirectConnect acr proxy host = some res ∧
      res.trace =
        [Event.cacheGet (proxy.splitHostPort host),
         Event.aclCheck (proxy.splitHostPort host) (!proxy.ACL.RemoteDNS),
         Event.roundTrip transport req,
         Event.aclCheck (bytesToString (proxy.DecodeString dnsResp).1) true,
         Event.cacheAdd (proxy.splitHostPort host) entry] := by
  have hcount : (proxy.DecodeString dnsResp).1.count dotByte = 3 := by
    have h := bytesSplit_length (proxy.DecodeString dnsResp).1 dotByte
    omega
  have hres : resolvedIP proxy dnsResp =
      some (bytesToString (proxy.DecodeString dnsResp).1) := by
    simp only [resolvedIP, if_pos hsplit]
  refine ⟨hcount, hres, ?_⟩
  rw [canDirectConnect_of_miss acr proxy host hmiss,
    onMiss_of_doubt acr proxy _ _ hd hglobal hdoubt,
    queryUpstream_of_resolved acr proxy _ _ _ _ _ transport req _ _ hreq hrt hres,
    Option.map_some', deferred_of_not_global proxy _ _ hglobal]
  have hf := (aclCheck_fields acr proxy
    (bytesToString (proxy.DecodeString dnsResp).1)
    ([Event.cacheGet (proxy.splitHostPort host)] ++
      [Event.aclCheck (proxy.splitHostPort host) (!proxy.ACL.RemoteDNS)] ++
      [Event.roundTrip transport req])).1
  generalize aclCheck acr proxy _ _ = ret at hf ⊢
  exact ⟨_, ⟨ret.ipstr, ret.r, ret.r, ret.rule⟩, rfl, by simp [hf]⟩

/-- C12 at the header `OTMuMTg0LjIxNi4zNA==`, the standard encoding of the ASCII bytes of
`93.184.216.34`. -/
theorem C12_literal_dotted_quad_witness :
    (Base64.DecodeString "OTMuMTg0LjIxNi4zNA==").1.count dotByte = 3 ∧
    resolvedIP (stdClient [] 3 5 true [] (Except.ok "OTMuMTg0LjIxNi4zNA=="))
      "OTMuMTg0LjIxNi4zNA==" = some "93.184.216.34" ∧
    ∃ (res : Result) (entry : Rule),
      canDirectConnect sampleCodes
        (stdClient [] 3 5 true [] (Except.ok "OTMuMTg0LjIxNi4zNA==")) "example.com:80"
        = some res ∧
      res.trace =
        [Event.cacheGet "example.com",
         Event.aclCheck "example.com" false,
         Event.roundTrip Transport.tpq { method := "GET", url := "http://dummy.com/enc-example.com", header := [] },
         Event.aclCheck "93.184.216.34" true,
         Event.cacheAdd "example.com" entry] :=
  C12_literal_dotted_quad sampleCodes
    (stdClient [] 3 5 true [] (Except.ok "OTMuMTg0LjIxNi4zNA==")) "example.com:80"
    Transport.tpq
    { method := "GET", url := "http://dummy.com/enc-example.com", header := [] }
    "OTMuMTg0LjIxNi4zNA==" (by decide) (by decide) (by decide) (Or.inl (by decide))
    (by decide) rfl (by decide)

/-- C13 fails on the code at the header `MS4yLjMu!` (the encoding of `1.2.3.` followed by a
character outside the alphabet): the standard decoder reports an error and returns the
six bytes decoded before it, which hold three '.' bytes; `canDirectConnect` takes them
as a literal address, runs the second matcher pass on `1.2.3.` and returns
`(ruleProxy, "Proxy (by remote)")` instead of the provisional outcome with
"Bad response". -/
theorem C13_decode_error_reaches_second_pass :
    Base64.DecodeString "MS4yLjMu!" = ([49, 46, 50, 46, 51, 46], true) ∧
    canDirectConnect sampleCodes (stdClient [] 9 5 true [] (Except.ok "MS4yLjMu!"))
        "example.com:80" =
      some { r := ruleProxy, ext := "Proxy (by remote)",
             DNSCache := { entries := [("example.com", some ⟨"1.2.3.", 0, 0, 5⟩)] },
             trace := [Event.cacheGet "example.com",
                       Event.aclCheck "example.com" false,
                       Event.roundTrip Transport.tpq
                         { method := "GET", url := "http://dummy.com/enc-example.com", header := [] },
                       Event.aclCheck "1.2.3." true,
                       Event.cacheAdd "example.com" ⟨"1.2.3.", 0, 0, 5⟩] } := by
  decide

/-- C18: for every successful response whose decoded header payload does not split on
'.' into exactly 4 components and is not exactly 4 bytes long, `canDirectConnect` returns
the provisional outcome of the first-pass switch with the reason "Bad response"; its
collaborator calls are the cache lookup, the first matcher call, the round trip and the
cache insertion, so the second matcher pass is not run. -/
theorem C18_wrong_length_bad_response (acr : AclCodes) (proxy : ProxyClient)
    (host : String) (transport : Transport) (req : Request) (dnsResp : String)
    (hd : acr.Distinct)
    (hmiss : proxy.DNSCache.Get (proxy.splitHostPort host) = none)
    (hglobal : proxy.Policy.IsSet PolicyFlag.PolicyGlobal = false)
    (hdoubt : ((proxy.ACL.Check (proxy.splitHostPort host) (!proxy.ACL.RemoteDNS)).1
          = acr.RulePass ∧ proxy.ACL.RemoteDNS = true) ∨
      (proxy.ACL.Check (proxy.splitHostPort host) (!proxy.ACL.RemoteDNS)).1 ∉
        [acr.RuleIPv6, acr.RuleMatchedPass, acr.RuleProxy, acr.RuleMatchedProxy,
         acr.RuleBlock, acr.RulePrivate, acr.RulePass])
    (hreq : dnsRequest proxy (proxy.splitHostPort host) = some (transport, req))
    (hrt : proxy.RoundTrip transport req = Except.ok dnsResp)
    (hsplit : (bytesSplit (proxy.DecodeString dnsResp).1 dotByte).length ≠ 4)
    (hlen : (proxy.DecodeString dnsResp).1.length ≠ 4) :
    ∃ (res : Result) (entry : Rule),
      canDirectConnect acr proxy host = some res ∧
      res.r = (if (proxy.ACL.Check (proxy.splitHostPort host)
                    (!proxy.ACL.RemoteDNS)).1 = acr.RulePass
               then rulePass else ruleProxy) ∧
      res.ext = "Bad response" ∧
      res.trace =
        [Event.cacheGet (proxy.splitHostPort host),
         Event.aclCheck (proxy.splitHostPort host) (!proxy.ACL.RemoteDNS),
         Event.roundTrip transport req,
         Event.cacheAdd (proxy.splitHostPort host) entry] := by
  have hbad : resolvedIP proxy dnsResp = none := by
    simp only [resolvedIP, if_neg hsplit]
    split
    · simp_all
    · rfl
  rw [canDirectConnect_of_miss acr proxy host hmiss,
    onMiss_of_doubt acr proxy _ _ hd hglobal hdoubt,
    queryUpstream_of_bad_response acr proxy _ _ _ _ _ transport req dnsResp hreq hrt hbad,
    Option.map_some', deferred_of_not_global proxy _ _ hglobal]
  exact ⟨_, _, rfl, rfl, rfl, rfl⟩

/-- C18 at a response without resolution header: the empty header decodes to the empty
payload without error. -/
theorem C18_wrong_length_bad_response_witness :
    Base64.DecodeString "" = ([], false) ∧
    ∃ (res : Result) (entry : Rule),
      canDirectConnect sampleCodes (stdClient [] 9 5 true [] (Except.ok ""))
        "example.com:80" = some res ∧
      res.r = ruleProxy ∧
      res.ext = "Bad response" ∧
      res.trace =
        [Event.cacheGet "example.com",
         Event.aclCheck "example.com" false,
         Event.roundTrip Transport.tpq { method := "GET", url := "http://dummy.com/enc-example.com", header := [] },
         Event.cacheAdd "example.com" entry] :=
  ⟨by decide,
   C18_wrong_length_bad_response sampleCodes (stdClient [] 9 5 true [] (Except.ok ""))
    "example.com:80" Transport.tpq
    { method := "GET", url := "http://dummy.com/enc-example.com", header := [] } ""
    (by decide) (by decide) (by decide) (Or.inr (by decide)) (by decide) rfl
    (by decide) (by decide)⟩

/-! ## The requests sent -/

/-- When the request is built, the remote resolution returns and sends exactly that
request, whatever the round trip answers. -/
theorem queryUpstream_requests (acr : AclCodes) (proxy : ProxyClient) (key : String)
    (r : Nat) (ipstr : String) (rule : Nat) (trace : List Event)
    (transport : Transport) (req : Request)
    (hreq : dnsRequest proxy key = some (transport, req)) :
    ∃ ret : Ret,
      queryUpstream acr proxy key r ipstr rule trace = some ret ∧
      ret.trace.filter Event.isRoundTrip =
        trace.filter Event.isRoundTrip ++ [Event.roundTrip transport req] := by
  cases hrt : proxy.RoundTrip transport req with
  | error e =>
    rw [queryUpstream_of_error acr proxy key r ipstr rule trace transport req e hreq hrt]
    exact ⟨_, rfl, by simp [List.filter_append, Event.isRoundTrip]⟩
  | ok dnsResp =>
    cases hres : resolvedIP proxy dnsResp with
    | none =>
      rw [queryUpstream_of_bad_response acr proxy key r ipstr rule trace transport req
        dnsResp hreq hrt hres]
      exact ⟨_, rfl, by simp [List.filter_append, Event.isRoundTrip]⟩
    | some s =>
      rw [queryUpstream_of_resolved acr proxy key r ipstr rule trace transport req
        dnsResp s hreq hrt hres]
      refine ⟨_, rfl, ?_⟩
      rw [(aclCheck_fields acr proxy s _).1]
      simp [List.filter_append, Event.isRoundTrip]

/-- When building the request panics, so does the remote resolution. -/
theorem queryUpstream_of_nil_request (acr : AclCodes) (proxy : ProxyClient) (key : String)
    (r : Nat) (ipstr : String) (rule : Nat) (trace : List Event)
    (hreq : dnsRequest proxy key = none) :
    queryUpstream acr proxy key r ipstr rule trace = none := by
  simp [queryUpstream, hreq]

/-- The deferred closure sends no request. -/
theorem deferred_requests (proxy : ProxyClient) (key : String) (ret : Ret) :
    (deferred proxy key ret).trace.filter Event.isRoundTrip =
      ret.trace.filter Event.isRoundTrip := by
  unfold deferred
  split_ifs <;> simp [List.filter_append, Event.isRoundTrip]

/-- The request that is built has the shape the policy flags select. -/
theorem dnsRequest_shape (proxy : ProxyClient) (key : String) (transport : Transport)
    (req : Request) (hreq : dnsRequest proxy key = some (transport, req)) :
    (transport, req) =
      if proxy.Policy.IsSet PolicyFlag.PolicyAgent = true then
        (Transport.tpd,
         { method := "GET", url := proxy.agentUpstream,
           header := (proxy.fwdURLHeader, key ++ ",dns") ::
             (if proxy.Policy.IsSet PolicyFlag.PolicyForward = true then
                [(proxy.fwdURLHeader,
                  "http://" ++ proxy.genHost ++ "/" ++ proxy.encryptClientRequest
                    { proxy.newRequest with
                      doDNS := true, Real := "dns", Auth := proxy.UserAuth, Query := key })]
              else []) })
      else if proxy.Policy.IsSet PolicyFlag.PolicyForward = true then
        (Transport.tpq,
         { method := "GET", url := "http://" ++ proxy.Upstream,
           header := [(proxy.fwdURLHeader,
             "http://" ++ proxy.genHost ++ "/" ++ proxy.encryptClientRequest
               { proxy.newRequest with
                 doDNS := true, Real := "dns", Auth := proxy.UserAuth, Query := key })] })
      else
        (Transport.tpq,
         { method := "GET",
           url := "http://" ++ proxy.genHost ++ "/" ++ proxy.encryptClientRequest
             { proxy.newRequest with
               doDNS := true, Real := "dns", Auth := proxy.UserAuth, Query := key },
           header := [] }) := by
  simp only [dnsRequest, NewRequest] at hreq
  cases hagent : proxy.Policy.IsSet PolicyFlag.PolicyAgent <;>
    cases hforward : proxy.Policy.IsSet PolicyFlag.PolicyForward <;>
    simp only [hagent, hforward] at hreq <;>
    split_ifs at hreq <;>
    simp_all [Request.HeaderAdd]

/-- Building the request panics exactly when the URL of the request that is kept does
not parse: the agent relay endpoint under Agent, otherwise "http://" followed by
`Upstream` under Forward, otherwise the fully-encrypted resolution URL. -/
theorem dnsRequest_eq_none_iff (proxy : ProxyClient) (key : String) :
    dnsRequest proxy key = none ↔
      proxy.parseURL
        (if proxy.Policy.IsSet PolicyFlag.PolicyAgent = true then proxy.agentUpstream
         else if proxy.Policy.IsSet PolicyFlag.PolicyForward = true then
           "http://" ++ proxy.Upstream
         else
           "http://" ++ proxy.genHost ++ "/" ++ proxy.encryptClientRequest
             { proxy.newRequest with
               doDNS := true, Real := "dns", Auth := proxy.UserAuth, Query := key })
        = false := by
  simp only [dnsRequest, NewRequest]
  cases hagent : proxy.Policy.IsSet PolicyFlag.PolicyAgent <;>
    cases hforward : proxy.Policy.IsSet PolicyFlag.PolicyForward <;>
    simp only [Bool.not_true, Bool.not_false, if_true, if_false, Bool.false_eq_true] <;>
    split_ifs <;>
    simp_all

/-- C14, as stated, fails: with Agent and Forward both set the request to the agent relay
carries two forwarding header values, the host with ",dns" and then the fully-encrypted
resolution URL, not the first one alone. -/
theorem C14_request_shaping_counterexample :
    (sampleClient [] 9 5 true [PolicyFlag.PolicyAgent, PolicyFlag.PolicyForward]
      (Except.ok "") ([], false)).Policy.IsSet PolicyFlag.PolicyAgent = true ∧
    (canDirectConnect sampleCodes
        (sampleClient [] 9 5 true [PolicyFlag.PolicyAgent, PolicyFlag.PolicyForward]
          (Except.ok "") ([], false)) "example.com:80").map
        (fun res => res.trace.filter Event.isRoundTrip) =
      some [Event.roundTrip Transport.tpd
        { method := "GET", url := "http://agent:8100",
          header := [("X-Forwarded-Url", "example.com,dns"),
                     ("X-Forwarded-Url", "http://dummy.com/enc-example.com")] }] ∧
    [("X-Forwarded-Url", "example.com,dns"),
     ("X-Forwarded-Url", "http://dummy.com/enc-example.com")] ≠
      [("X-Forwarded-Url", "example.com,dns")] := by
  decide

/-- C14, amended: the request that `canDirectConnect` builds for the remote resolution,
and hands to the transport, is shaped by the policy flags as follows.  With Agent set it
is a GET to the agent relay endpoint over `tpd` whose forwarding header carries the host
followed by ",dns" and, when Forward is set as well, the fully-encrypted resolution URL
as a second value.  Otherwise, with Forward set, it is a GET to "http://" followed by
`Upstream` over `tpq` whose forwarding header carries exactly the fully-encrypted
resolution URL.  Otherwise it is a GET to the fully-encrypted resolution URL over `tpq`
with no forwarding header. -/
theorem C14_request_shaping (acr : AclCodes) (proxy : ProxyClient) (host : String)
    (transport : Transport) (req : Request) (hd : acr.Distinct)
    (hmiss : proxy.DNSCache.Get (proxy.splitHostPort host) = none)
    (hglobal : proxy.Policy.IsSet PolicyFlag.PolicyGlobal = false)
    (hdoubt : ((proxy.ACL.Check (proxy.splitHostPort host) (!proxy.ACL.RemoteDNS)).1
          = acr.RulePass ∧ proxy.ACL.RemoteDNS = true) ∨
      (proxy.ACL.Check (proxy.splitHostPort host) (!proxy.ACL.RemoteDNS)).1 ∉
        [acr.RuleIPv6, acr.RuleMatchedPass, acr.RuleProxy, acr.RuleMatchedProxy,
         acr.RuleBlock, acr.RulePrivate, acr.RulePass])
    (hreq : dnsRequest proxy (proxy.splitHostPort host) = some (transport, req)) :
    (transport, req) =
      (if proxy.Policy.IsSet PolicyFlag.PolicyAgent = true then
        (Transport.tpd,
         { method := "GET", url := proxy.agentUpstream,
           header := (proxy.fwdURLHeader, proxy.splitHostPort host ++ ",dns") ::
             (if proxy.Policy.IsSet PolicyFlag.PolicyForward = true then
                [(proxy.fwdURLHeader,
                  "http://" ++ proxy.genHost ++ "/" ++ proxy.encryptClientRequest
                    { proxy.newRequest with
                      doDNS := true, Real := "dns", Auth := proxy.UserAuth,
                      Query := proxy.splitHostPort host })]
              else []) })
      else if proxy.Policy.IsSet PolicyFlag.PolicyForward = true then
        (Transport.tpq,
         { method := "GET", url := "http://" ++ proxy.Upstream,
           header := [(proxy.fwdURLHeader,
             "http://" ++ proxy.genHost ++ "/" ++ proxy.encryptClientRequest
               { proxy.newRequest with
                 doDNS := true, Real := "dns", Auth := proxy.UserAuth,
                 Query := proxy.splitHostPort host })] })
      else
        (Transport.tpq,
         { method := "GET",
           url := "http://" ++ proxy.genHost ++ "/" ++ proxy.encryptClientRequest
             { proxy.newRequest with
               doDNS := true, Real := "dns", Auth := proxy.UserAuth,
               Query := proxy.splitHostPort host },
           header := [] })) ∧
    ∃ res : Result,
      canDirectConnect acr proxy host = some res ∧
      res.trace.filter Event.isRoundTrip = [Event.roundTrip transport req] := by
  refine ⟨dnsRequest_shape proxy _ transport req hreq, ?_⟩
  obtain ⟨ret, hq, hfilter⟩ := queryUpstream_requests acr proxy (proxy.splitHostPort host)
    (if (proxy.ACL.Check (proxy.splitHostPort host) (!proxy.ACL.RemoteDNS)).1
        = acr.RulePass then rulePass else ruleProxy)
    (proxy.ACL.Check (proxy.splitHostPort host) (!proxy.ACL.RemoteDNS)).2.1
    (proxy.ACL.Check (proxy.splitHostPort host) (!proxy.ACL.RemoteDNS)).1
    ([Event.cacheGet (proxy.splitHostPort host)] ++
      [Event.aclCheck (proxy.splitHostPort host) (!proxy.ACL.RemoteDNS)])
    transport req hreq
  rw [canDirectConnect_of_miss acr proxy host hmiss,
    onMiss_of_doubt acr proxy _ _ hd hglobal hdoubt, hq, Option.map_some']
  refine ⟨_, rfl, ?_⟩
  rw [deferred_requests, hfilter]
  simp [List.filter_append, Event.isRoundTrip]

/-- C14 amended, at the four combinations of Agent and Forward: both, Agent alone,
Forward alone, neither. -/
theorem C14_request_shaping_witness :
    (∃ res : Result,
      canDirectConnect sampleCodes
        (sampleClient [] 9 5 true [PolicyFlag.PolicyAgent, PolicyFlag.PolicyForward]
          (Except.ok "") ([], false)) "example.com:80" = some res ∧
      res.trace.filter Event.isRoundTrip =
        [Event.roundTrip Transport.tpd
          { method := "GET", url := "http://agent:8100",
            header := [("X-Forwarded-Url", "example.com,dns"),
                       ("X-Forwarded-Url", "http://dummy.com/enc-example.com")] }]) ∧
    (∃ res : Result,
      canDirectConnect sampleCodes
        (sampleClient [] 9 5 true [PolicyFlag.PolicyAgent] (Except.ok "") ([], false))
        "example.com:80" = some res ∧
      res.trace.filter Event.isRoundTrip =
        [Event.roundTrip Transport.tpd
          { method := "GET", url := "http://agent:8100",
            header := [("X-Forwarded-Url", "example.com,dns")] }]) ∧
    (∃ res : Result,
      canDirectConnect sampleCodes
        (sampleClient [] 9 5 true [PolicyFlag.PolicyForward] (Except.ok "") ([], false))
        "example.com:80" = some res ∧
      res.trace.filter Event.isRoundTrip =
        [Event.roundTrip Transport.tpq
          { method := "GET", url := "http://upstream:8100",
            header := [("X-Forwarded-Url", "http://dummy.com/enc-example.com")] }]) ∧
    (∃ res : Result,
      canDirectConnect sampleCodes
        (sampleClient [] 9 5 true [] (Except.ok "") ([], false))
        "example.com:80" = some res ∧
      res.trace.filter Event.isRoundTrip =
        [Event.roundTrip Transport.tpq
          { method := "GET", url := "http://dummy.com/enc-example.com", header := [] }]) :=
  ⟨(C14_request_shaping sampleCodes
      (sampleClient [] 9 5 true [PolicyFlag.PolicyAgent, PolicyFlag.PolicyForward]
        (Except.ok "") ([], false)) "example.com:80" Transport.tpd
      { method := "GET", url := "http://agent:8100",
        header := [("X-Forwarded-Url", "example.com,dns"),
                   ("X-Forwarded-Url", "http://dummy.com/enc-example.com")] }
      (by decide) (by decide) (by decide) (Or.inr (by decide)) (by decide)).2,
   (C14_request_shaping sampleCodes
      (sampleClient [] 9 5 true [PolicyFlag.PolicyAgent] (Except.ok "") ([], false))
      "example.com:80" Transport.tpd
      { method := "GET", url := "http://agent:8100",
        header := [("X-Forwarded-Url", "example.com,dns")] }
      (by decide) (by decide) (by decide) (Or.inr (by decide)) (by decide)).2,
   (C14_request_shaping sampleCodes
      (sampleClient [] 9 5 true [PolicyFlag.PolicyForward] (Except.ok "") ([], false))
      "example.com:80" Transport.tpq
      { method := "GET", url := "http://upstream:8100",
        header := [("X-Forwarded-Url", "http://dummy.com/enc-example.com")] }
      (by decide) (by decide) (by decide) (Or.inr (by decide)) (by decide)).2,
   (C14_request_shaping sampleCodes
      (sampleClient [] 9 5 true [] (Except.ok "") ([], false))
      "example.com:80" Transport.tpq
      { method := "GET", url := "http://dummy.com/enc-example.com", header := [] }
      (by decide) (by decide) (by decide) (Or.inr (by decide)) (by decide)).2⟩

/-! ## The server-side block check -/

/-- A lookup in the block cache right after `Add` under the same key finds the added
boolean. -/
theorem BoolCache.Get_after_Add (c : BoolCache) (key : String) (value : Bool) :
    (c.Add key value).Get key = some value := by
  simp [BoolCache.Get, BoolCache.Add, List.lookup]

/-- C15: with a matcher configured and no entry for the port-stripped host in the block
cache, `isBlocked` returns true exactly when the code the matcher answers (asked with
local resolution forced on) is Block, whatever error the matcher reports; the boolean is
added to the cache under the port-stripped host, and the following call for the host, on
that cache, returns the same boolean with the cache lookup as its only collaborator
call. -/
theorem C15_server_block_check (acr : AclCodes) (proxy : ProxyServer) (acl : ACL)
    (host : String)
    (hacl : proxy.ACL = some acl)
    (hmiss : proxy.ACLCache.Get (proxy.splitHostPort host) = none) :
    ((isBlocked acr proxy host).bk = true ↔
      (acl.Check (proxy.splitHostPort host) true).1 = acr.RuleBlock) ∧
    (isBlocked acr proxy host).trace =
      [ServerEvent.cacheGet (proxy.splitHostPort host),
       ServerEvent.aclCheck (proxy.splitHostPort host) true,
       ServerEvent.cacheAdd (proxy.splitHostPort host) (isBlocked acr proxy host).bk] ∧
    (isBlocked acr proxy host).ACLCache =
      proxy.ACLCache.Add (proxy.splitHostPort host) (isBlocked acr proxy host).bk ∧
    (isBlocked acr proxy host).ACLCache.Get (proxy.splitHostPort host) =
      some (isBlocked acr proxy host).bk ∧
    isBlocked acr { proxy with ACLCache := (isBlocked acr proxy host).ACLCache } host =
      { bk := (isBlocked acr proxy host).bk,
        ACLCache := (isBlocked acr proxy host).ACLCache,
        trace := [ServerEvent.cacheGet (proxy.splitHostPort host)] } := by
  have hres : isBlocked acr proxy host =
      { bk := decide ((acl.Check (proxy.splitHostPort host) true).1 = acr.RuleBlock),
        ACLCache := proxy.ACLCache.Add (proxy.splitHostPort host)
          (decide ((acl.Check (proxy.splitHostPort host) true).1 = acr.RuleBlock)),
        trace := [ServerEvent.cacheGet (proxy.splitHostPort host),
                  ServerEvent.aclCheck (proxy.splitHostPort host) true,
                  ServerEvent.cacheAdd (proxy.splitHostPort host)
                    (decide ((acl.Check (proxy.splitHostPort host) true).1
                      = acr.RuleBlock))] } := by
    simp [isBlocked, hacl, hmiss]
  rw [hres]
  refine ⟨by simp, rfl, rfl, BoolCache.Get_after_Add _ _ _, ?_⟩
  simp [isBlocked, hacl, BoolCache.Get_after_Add]

/-- C15 at a host the matcher classifies Block while reporting an error, and at a host
it classifies unqualified Pass. -/
theorem C15_server_block_check_witness :
    (isBlocked sampleCodes (sampleServer true 0 true []) "example.com:80").bk = true ∧
    (isBlocked sampleCodes (sampleServer true 3 false []) "example.com:80").bk = false ∧
    isBlocked sampleCodes (sampleServer true 0 true [("example.com", true)])
        "example.com:80" =
      { bk := true, ACLCache := { entries := [("example.com", true)] },
        trace := [ServerEvent.cacheGet "example.com"] } :=
  ⟨(C15_server_block_check sampleCodes (sampleServer true 0 true [])
      { Check := fun target _ => (0, target, true), RemoteDNS := false }
      "example.com:80" rfl (by decide)).1.mpr (by decide),
   by
    have h := (C15_server_block_check sampleCodes (sampleServer true 3 false [])
      { Check := fun target _ => (3, target, false), RemoteDNS := false }
      "example.com:80" rfl (by decide)).1
    cases hb : (isBlocked sampleCodes (sampleServer true 3 false []) "example.com:80").bk
    · rfl
    · exact absurd (h.mp hb) (by decide),
   (C15_server_block_check sampleCodes (sampleServer true 0 true [])
      { Check := fun target _ => (0, target, true), RemoteDNS := false }
      "example.com:80" rfl (by decide)).2.2.2.2⟩

/-- C16: when no matcher is configured (`ACL` is nil), `isBlocked` returns false for every
host and every block cache, and makes no collaborator call: the cache is neither read
nor written and is left as it was. -/
theorem C16_block_check_disabled (acr : AclCodes) (proxy : ProxyServer) (host : String)
    (hacl : proxy.ACL = none) :
    isBlocked acr proxy host = { bk := false, ACLCache := proxy.ACLCache, trace := [] } := by
  simp [isBlocked, hacl]

/-- C16 at a server without matcher whose cache holds true for the host. -/
theorem C16_block_check_disabled_witness :
    (sampleServer false 0 false [("example.com", true)]).ACLCache.Get "example.com"
      = some true ∧
    isBlocked sampleCodes (sampleServer false 0 false [("example.com", true)])
        "example.com:80" =
      { bk := false, ACLCache := { entries := [("example.com", true)] }, trace := [] } :=
  ⟨by decide,
   C16_block_check_disabled sampleCodes (sampleServer false 0 false [("example.com", true)])
    "example.com:80" rfl⟩

/-! ## No unnecessary remote query -/

/-- Unless the lookup finds a non-nil entry, `canDirectConnect` is the miss body followed
by the deferred closure (a nil entry counts as a miss). -/
theorem canDirectConnect_of_no_hit (acr : AclCodes) (proxy : ProxyClient) (host : String)
    (hmiss : ∀ c : Rule, proxy.DNSCache.Get (proxy.splitHostPort host) ≠ some (some c)) :
    canDirectConnect acr proxy host =
      (onMiss acr proxy (proxy.splitHostPort host)
        [Event.cacheGet (proxy.splitHostPort host)]).map
        (deferred proxy (proxy.splitHostPort host)) := by
  unfold canDirectConnect
  cases hget : proxy.DNSCache.Get (proxy.splitHostPort host) with
  | none => simp
  | some v =>
    cases v with
    | none => simp
    | some c => exact absurd hget (hmiss c)

/-- When Global is set, or the first-pass switch returns, the miss body returns and sends
no request. -/
theorem onMiss_requests_of_no_doubt (acr : AclCodes) (proxy : ProxyClient) (key : String)
    (trace : List Event)
    (h : proxy.Policy.IsSet PolicyFlag.PolicyGlobal = true ∨
      ¬ (((proxy.ACL.Check key (!proxy.ACL.RemoteDNS)).1 = acr.RulePass ∧
          proxy.ACL.RemoteDNS = true) ∨
        (proxy.ACL.Check key (!proxy.ACL.RemoteDNS)).1 ∉
          [acr.RuleIPv6, acr.RuleMatchedPass, acr.RuleProxy, acr.RuleMatchedProxy,
           acr.RuleBlock, acr.RulePrivate, acr.RulePass])) :
    ∃ ret : Ret,
      onMiss acr proxy key trace = some ret ∧
      ret.trace.filter Event.isRoundTrip = trace.filter Event.isRoundTrip := by
  simp only [onMiss]
  split_ifs <;>
    first
      | exact ⟨_, rfl, by simp [List.filter_append, Event.isRoundTrip]⟩
      | (exfalso
         rcases h with h | h
         · simp_all
         · apply h
           simp_all)

/-- C17, as stated, fails: in the permitted situation (no cache entry, Global not set, a
first-pass code outside the seven) with Forward set and an `Upstream` that does not
parse, building the request panics at line 103 before any round trip, so the call
returns nothing and it is not the case that one request is sent. -/
theorem C17_no_unnecessary_remote_query_counterexample :
    ({ sampleClient [] 9 5 true [PolicyFlag.PolicyForward] (Except.ok "") ([], false) with
       Upstream := "up stream:8100" } : ProxyClient).DNSCache.Get "example.com" = none ∧
    ({ sampleClient [] 9 5 true [PolicyFlag.PolicyForward] (Except.ok "") ([], false) with
       Upstream := "up stream:8100" } : ProxyClient).Policy.IsSet PolicyFlag.PolicyGlobal
      = false ∧
    (({ sampleClient [] 9 5 true [PolicyFlag.PolicyForward] (Except.ok "") ([], false) with
       Upstream := "up stream:8100" } : ProxyClient).ACL.Check "example.com" false).1 ∉
      [sampleCodes.RuleIPv6, sampleCodes.RuleMatchedPass, sampleCodes.RuleProxy,
       sampleCodes.RuleMatchedProxy, sampleCodes.RuleBlock, sampleCodes.RulePrivate,
       sampleCodes.RulePass] ∧
    dnsRequest
      { sampleClient [] 9 5 true [PolicyFlag.PolicyForward] (Except.ok "") ([], false) with
        Upstream := "up stream:8100" } "example.com" = none ∧
    canDirectConnect sampleCodes
      { sampleClient [] 9 5 true [PolicyFlag.PolicyForward] (Except.ok "") ([], false) with
        Upstream := "up stream:8100" } "example.com:80" = none := by
  decide

/-- C17, amended: a call of `canDirectConnect` that returns has sent no request or one
request, and it has sent one exactly when the lookup found no non-nil entry for the
host, Global is not set, and the first-pass code is unqualified Pass with remote DNS
enabled or a code outside IPv6, MatchedPass, Proxy, MatchedProxy, Block, Private, Pass;
in that situation the call returns, having sent one request, whenever the request is
built.  The call fails to return only when the cache-hit switch panics (a non-nil entry
whose `Ans` is none of the three outcomes) or, in that same situation, when building
the request panics. -/
theorem C17_no_unnecessary_remote_query (acr : AclCodes) (proxy : ProxyClient)
    (host : String) (hd : acr.Distinct) :
    (canDirectConnect acr proxy host = none ↔
      (∃ c : Rule, proxy.DNSCache.Get (proxy.splitHostPort host) = some (some c) ∧
        c.Ans ≠ ruleProxy ∧ c.Ans ≠ rulePass ∧ c.Ans ≠ ruleBlock) ∨
      ((∀ c : Rule, proxy.DNSCache.Get (proxy.splitHostPort host) ≠ some (some c)) ∧
        proxy.Policy.IsSet PolicyFlag.PolicyGlobal = false ∧
        (((proxy.ACL.Check (proxy.splitHostPort host) (!proxy.ACL.RemoteDNS)).1
            = acr.RulePass ∧ proxy.ACL.RemoteDNS = true) ∨
          (proxy.ACL.Check (proxy.splitHostPort host) (!proxy.ACL.RemoteDNS)).1 ∉
            [acr.RuleIPv6, acr.RuleMatchedPass, acr.RuleProxy, acr.RuleMatchedProxy,
             acr.RuleBlock, acr.RulePrivate, acr.RulePass]) ∧
        dnsRequest proxy (proxy.splitHostPort host) = none)) ∧
    (∀ res : Result, canDirectConnect acr proxy host = some res →
      (roundTrips res.trace = 0 ∨ roundTrips res.trace = 1) ∧
      (roundTrips res.trace = 1 ↔
        (∀ c : Rule, proxy.DNSCache.Get (proxy.splitHostPort host) ≠ some (some c)) ∧
        proxy.Policy.IsSet PolicyFlag.PolicyGlobal = false ∧
        (((proxy.ACL.Check (proxy.splitHostPort host) (!proxy.ACL.RemoteDNS)).1
            = acr.RulePass ∧ proxy.ACL.RemoteDNS = true) ∨
          (proxy.ACL.Check (proxy.splitHostPort host) (!proxy.ACL.RemoteDNS)).1 ∉
            [acr.RuleIPv6, acr.RuleMatchedPass, acr.RuleProxy, acr.RuleMatchedProxy,
             acr.RuleBlock, acr.RulePrivate, acr.RulePass]))) ∧
    ((∀ c : Rule, proxy.DNSCache.Get (proxy.splitHostPort host) ≠ some (some c)) →
      proxy.Policy.IsSet PolicyFlag.PolicyGlobal = false →
      (((proxy.ACL.Check (proxy.splitHostPort host) (!proxy.ACL.RemoteDNS)).1
            = acr.RulePass ∧ proxy.ACL.RemoteDNS = true) ∨
          (proxy.ACL.Check (proxy.splitHostPort host) (!proxy.ACL.RemoteDNS)).1 ∉
            [acr.RuleIPv6, acr.RuleMatchedPass, acr.RuleProxy, acr.RuleMatchedProxy,
             acr.RuleBlock, acr.RulePrivate, acr.RulePass]) →
      dnsRequest proxy (proxy.splitHostPort host) ≠ none →
      ∃ res : Result,
        canDirectConnect acr proxy host = some res ∧ roundTrips res.trace = 1) := by
  by_cases hhit : ∃ c : Rule, proxy.DNSCache.Get (proxy.splitHostPort host) = some (some c)
  · obtain ⟨c, hc⟩ := hhit
    have hnot : ¬ ∀ c : Rule,
        proxy.DNSCache.Get (proxy.splitHostPort host) ≠ some (some c) :=
      fun h => h c hc
    refine ⟨⟨?_, ?_⟩, ?_, fun h => absurd h hnot⟩
    · intro hnone
      refine Or.inl ⟨c, hc, ?_⟩
      simp only [canDirectConnect, hc] at hnone
      split_ifs at hnone
      exact ⟨by assumption, by assumption, by assumption⟩
    · rintro (⟨c2, hc2, h0, h1, h2⟩ | ⟨h, -⟩)
      · have hcc : c2 = c := by
          rw [hc] at hc2
          exact (Option.some.inj (Option.some.inj hc2)).symm
        subst hcc
        simp [canDirectConnect, hc, h0, h1, h2]
      · exact absurd h hnot
    · intro res hres
      simp only [canDirectConnect, hc] at hres
      have ht : res.trace = [Event.cacheGet (proxy.splitHostPort host)] := by
        split_ifs at hres <;> (cases hres; rfl)
      simp [ht, roundTrips, Event.isRoundTrip, hnot]
  · have hmiss : ∀ c : Rule,
        proxy.DNSCache.Get (proxy.splitHostPort host) ≠ some (some c) :=
      fun c hc => hhit ⟨c, hc⟩
    have hcall := canDirectConnect_of_no_hit acr proxy host hmiss
    by_cases hdoubt :
        proxy.Policy.IsSet PolicyFlag.PolicyGlobal = false ∧
        (((proxy.ACL.Check (proxy.splitHostPort host) (!proxy.ACL.RemoteDNS)).1
            = acr.RulePass ∧ proxy.ACL.RemoteDNS = true) ∨
          (proxy.ACL.Check (proxy.splitHostPort host) (!proxy.ACL.RemoteDNS)).1 ∉
            [acr.RuleIPv6, acr.RuleMatchedPass, acr.RuleProxy, acr.RuleMatchedProxy,
             acr.RuleBlock, acr.RulePrivate, acr.RulePass])
    · rw [onMiss_of_doubt acr proxy _ _ hd hdoubt.1 hdoubt.2] at hcall
      cases hreq : dnsRequest proxy (proxy.splitHostPort host) with
      | none =>
        rw [queryUpstream_of_nil_request acr proxy _ _ _ _ _ hreq] at hcall
        simp only [Option.map_none'] at hcall
        refine ⟨⟨fun _ => Or.inr ⟨hmiss, hdoubt.1, hdoubt.2, rfl⟩, fun _ => hcall⟩, ?_, ?_⟩
        · intro res hres
          rw [hcall] at hres
          exact absurd hres (by simp)
        · intro _ _ _ hne
          exact absurd rfl hne
      | some tq =>
        obtain ⟨transport, req⟩ := tq
        obtain ⟨ret, hq, hfilter⟩ := queryUpstream_requests acr proxy
          (proxy.splitHostPort host)
          (if (proxy.ACL.Check (proxy.splitHostPort host) (!proxy.ACL.RemoteDNS)).1
              = acr.RulePass then rulePass else ruleProxy)
          (proxy.ACL.Check (proxy.splitHostPort host) (!proxy.ACL.RemoteDNS)).2.1
          (proxy.ACL.Check (proxy.splitHostPort host) (!proxy.ACL.RemoteDNS)).1
          ([Event.cacheGet (proxy.splitHostPort host)] ++
            [Event.aclCheck (proxy.splitHostPort host) (!proxy.ACL.RemoteDNS)])
          transport req hreq
        rw [hq, Option.map_some'] at hcall
        have hone : roundTrips
            (deferred proxy (proxy.splitHostPort host) ret).trace = 1 := by
          simp [roundTrips, deferred_requests, hfilter, List.filter_append,
            Event.isRoundTrip]
        refine ⟨⟨?_, ?_⟩, ?_, fun _ _ _ _ => ⟨_, hcall, hone⟩⟩
        · intro hnone
          rw [hcall] at hnone
          exact absurd hnone (by simp)
        · rintro (⟨c, hc, -⟩ | ⟨-, -, -, hnil⟩)
          · exact absurd hc (hmiss c)
          · exact absurd hnil (by simp)
        · intro res hres
          rw [hcall] at hres
          cases hres
          exact ⟨Or.inr hone, fun _ => ⟨hmiss, hdoubt⟩, fun _ => hone⟩
    · have hno : proxy.Policy.IsSet PolicyFlag.PolicyGlobal = true ∨
          ¬ (((proxy.ACL.Check (proxy.splitHostPort host) (!proxy.ACL.RemoteDNS)).1
            = acr.RulePass ∧ proxy.ACL.RemoteDNS = true) ∨
          (proxy.ACL.Check (proxy.splitHostPort host) (!proxy.ACL.RemoteDNS)).1 ∉
            [acr.RuleIPv6, acr.RuleMatchedPass, acr.RuleProxy, acr.RuleMatchedProxy,
             acr.RuleBlock, acr.RulePrivate, acr.RulePass]) := by
        by_cases hg : proxy.Policy.IsSet PolicyFlag.PolicyGlobal = true
        · exact Or.inl hg
        · exact Or.inr (fun hdb => hdoubt ⟨by simpa using hg, hdb⟩)
      obtain ⟨ret, hm, hfilter⟩ := onMiss_requests_of_no_doubt acr proxy
        (proxy.splitHostPort host) [Event.cacheGet (proxy.splitHostPort host)] hno
      rw [hm, Option.map_some'] at hcall
      have hzero : roundTrips
          (deferred proxy (proxy.splitHostPort host) ret).trace = 0 := by
        simp [roundTrips, deferred_requests, hfilter, Event.isRoundTrip]
      refine ⟨⟨?_, ?_⟩, ?_, fun _ hg hdb _ => absurd ⟨hg, hdb⟩ hdoubt⟩
      · intro hnone
        rw [hcall] at hnone
        exact absurd hnone (by simp)
      · rintro (⟨c, hc, -⟩ | ⟨-, hg, hdb, -⟩)
        · exact absurd hc (hmiss c)
        · exact absurd ⟨hg, hdb⟩ hdoubt
      · intro res hres
        rw [hcall] at hres
        cases hres
        refine ⟨Or.inl hzero, fun h => ?_, fun h => absurd ⟨h.2.1, h.2.2⟩ hdoubt⟩
        rw [hzero] at h
        exact absurd h (by decide)

/-- C17 amended, at an unqualified Pass with remote DNS enabled (one request) and at a
cached entry (no request). -/
theorem C17_no_unnecessary_remote_query_witness :
    (∃ res : Result,
      canDirectConnect sampleCodes
        (sampleClient [] 3 5 true [] (Except.ok "") ([], false)) "example.com:80"
        = some res ∧ roundTrips res.trace = 1) ∧
    (∃ res : Result,
      canDirectConnect sampleCodes
        (sampleClient [("example.com", some ⟨"", 1, 1, 3⟩)] 3 5 true [] (Except.ok "")
          ([], false)) "example.com:80"
        = some res ∧ roundTrips res.trace = 0) := by
  constructor
  · exact (C17_no_unnecessary_remote_query sampleCodes
      (sampleClient [] 3 5 true [] (Except.ok "") ([], false)) "example.com:80"
      (by decide)).2.2 (fun c hc => Option.noConfusion hc) (by decide)
      (Or.inl (by decide)) (by decide)
  · have h := C17_no_unnecessary_remote_query sampleCodes
      (sampleClient [("example.com", some ⟨"", 1, 1, 3⟩)] 3 5 true [] (Except.ok "")
        ([], false)) "example.com:80" (by decide)
    cases hres : canDirectConnect sampleCodes
        (sampleClient [("example.com", some ⟨"", 1, 1, 3⟩)] 3 5 true [] (Except.ok "")
          ([], false)) "example.com:80" with
    | none => exact absurd hres (by decide)
    | some res =>
      rcases (h.2.1 res hres).1 with h0 | h1
      · exact ⟨res, rfl, h0⟩
      · exact absurd (((h.2.1 res hres).2.mp h1).1 ⟨"", 1, 1, 3⟩) (by decide)

/-! ## Cache well-formedness and panic freedom -/

end Proxy
